import Mathlib

/-!
Verification of the equation-resolver operator core.

The development shallowly embeds the operator module (`plus`, `minus`,
`multiply`, `multiplyImplied`, `divide`, `power`, the central `handleCases`
dispatcher and the unit algebra `mapUnit` / `mapUnits`) of the repository.

Modelling choices:
* IEEE doubles are modelled as rationals (`ℚ`); `Math.pow` is modelled for
  integer exponents (see `mathPow`).
* Thrown JavaScript errors are modelled with `Except String`.
* A `UnitLookup` (a JavaScript object mapping unit symbols to exponents,
  iterated in insertion order) is modelled as an ordered association list;
  this is faithful whenever key sets are duplicate-free, which the UnitMap
  invariant of the data model guarantees.
* The recursive per-cell calls such as `plus(a, cell)` in the source always
  receive two bare `number` operands; they are embedded through the scalar
  core of the respective operator, and agreement theorems
  (`plus_number_number`, `divide_number_number`, ...) certify that the
  full operator coincides with that scalar core on bare numbers.
* `handleCases` recurses on unit-stripped payloads; the recursion is
  embedded structurally over an explicit bound `unitDepth a + unitDepth b`,
  which is exact for the recursion performed by the source.
-/

/-- Unit lookup: a map from unit symbol to exponent, in insertion order. -/
abbrev UnitLookup := List (String × ℚ)

/-- Matrix payload: row count `m`, column count `n`, and the grid of scalar
cells (each cell of the source grid is a `ResultTreeNumber`, i.e. a float). -/
structure MatrixData where
  m : ℕ
  n : ℕ
  values : List (List ℚ)
deriving DecidableEq

/-- The `ResultTree` tagged union of the source: a bare number, a matrix of
numbers, or a unit-annotated payload.  The payload of `unit` is a full
`ResultTree` because the source inspects dynamic `type` tags; the static
source type (`value: ResultTreeNumber | ResultTreeMatrix`) is recovered by
the well-formedness predicate `noUnitUnit` below. -/
inductive ResultTree where
  | number (value : ℚ)
  | matrix (data : MatrixData)
  | unit (units : UnitLookup) (value : ResultTree)
deriving DecidableEq

namespace ResultTree

/-- Dynamic tag test `x.type === 'unit'`. -/
def isUnit : ResultTree → Bool
  | .unit _ _ => true
  | _ => false

/-- Number of directly nested `unit` wrappers; the exact recursion depth of
the unit-unwrapping loop in `handleCases`. -/
def unitDepth : ResultTree → ℕ
  | .unit _ v => v.unitDepth + 1
  | _ => 0

/-- Well-formedness from the data model: a `Unit` value's wrapped payload is
never itself a `Unit`. -/
def noUnitUnit : ResultTree → Bool
  | .number _ => true
  | .matrix _ => true
  | .unit _ v => !v.isUnit && v.noUnitUnit

/-- Dynamic test: a bare matrix with exactly one column (`a.type === 'matrix'
&& a.n === 1`). -/
def isMatrixN1 : ResultTree → Bool
  | .matrix d => d.n == 1
  | _ => false

/-- Dynamic test for a scalar operand: a bare number or a unit-wrapped
number. -/
def isScalar : ResultTree → Bool
  | .number _ => true
  | .unit _ (.number _) => true
  | _ => false

end ResultTree

/-- First value stored under key `key`, or `0` when absent: the JavaScript
read `x[key] || 0` (a stored exponent `0` also reads as `0`). -/
def lookupOr0 : UnitLookup → String → ℚ
  | [], _ => 0
  | (k, v) :: t, key => if k = key then v else lookupOr0 t key

/-- Modelled from the spec (the `value-wrap` module is not in the sources):
`wrapValue` constructs a scalar result. -/
def valueWrap (x : ℚ) : ResultTree := .number x

/-- Modelled from the spec (the `unit-utils` module is not in the sources):
`getUnit` returns `x.units` if `x` is a `Unit`, else an empty map. -/
def getUnit : ResultTree → UnitLookup
  | .unit units _ => units
  | _ => []

/-- Modelled from the spec (the `unit-utils` module is not in the sources):
`getUnitless` returns `x.value` if `x` is a `Unit`, else `x` unchanged. -/
def getUnitless : ResultTree → ResultTree
  | .unit _ value => value
  | x => x

/-- Modelled from the spec (the `unit-utils` module is not in the sources):
`isEmptyUnit` is true iff the map has no entries. -/
def isEmptyUnit (u : UnitLookup) : Bool := u.isEmpty

/-- Modelled from the spec (the `unit-utils` module is not in the sources):
`isSameUnit` is true iff the two unit maps have identical key sets and
identical exponents for every key. -/
def isSameUnit (a b : UnitLookup) : Bool :=
  a.all (fun e => decide (lookupOr0 a e.1 = lookupOr0 b e.1)) &&
    b.all (fun e => decide (lookupOr0 a e.1 = lookupOr0 b e.1))

/-- Modelled from the spec (the `negate` module is not in the sources):
unary sign inversion; flips the sign of every scalar leaf, preserving unit
annotations and matrix shape. -/
def negate : ResultTree → ResultTree
  | .number v => .number (-v)
  | .matrix d => .matrix ⟨d.m, d.n, d.values.map (fun row => row.map (fun c => -c))⟩
  | .unit units value => .unit units (negate value)

/-- Effectful map over a list of cells, propagating the first thrown error
(exceptions unwind out of `Array.prototype.map` in the source). -/
def mapCells (f : ℚ → Except String ℚ) : List ℚ → Except String (List ℚ)
  | [] => .ok []
  | x :: t =>
    match f x with
    | .error e => .error e
    | .ok y =>
      match mapCells f t with
      | .error e => .error e
      | .ok ys => .ok (y :: ys)

/-- Effectful map over the rows of a grid, propagating the first error. -/
def mapRows (f : ℚ → Except String ℚ) : List (List ℚ) → Except String (List (List ℚ))
  | [] => .ok []
  | row :: t =>
    match mapCells f row with
    | .error e => .error e
    | .ok newRow =>
      match mapRows f t with
      | .error e => .error e
      | .ok rows => .ok (newRow :: rows)

/-- Modelled from the spec (the `map-matrix` module is not in the sources):
`mapMatrix` applies `f` to every cell and returns a new matrix of identical
shape, propagating errors raised by `f`. -/
def mapMatrix (mat : MatrixData) (f : ℚ → Except String ℚ) : Except String MatrixData :=
  match mapRows f mat.values with
  | .error e => .error e
  | .ok values => .ok ⟨mat.m, mat.n, values⟩

/-- Source `mapUnit`: maps every entry, omitting entries whose mapped value
is exactly `0`. -/
def mapUnit (x : UnitLookup) (mapper : ℚ → String → ℚ) : UnitLookup :=
  x.filterMap (fun e =>
    let newValue := mapper e.2 e.1
    if newValue = 0 then none else some (e.1, newValue))

/-- Second phase of the source `mapUnits` loop: the remaining units of `b`,
namely those whose key reads falsy through `a` (`if (a[key]) continue`),
mapped through `mapper(0, value, key)` and omitted when exactly `0`. -/
def mapUnitsRest (a b : UnitLookup) (mapper : ℚ → ℚ → String → ℚ) : UnitLookup :=
  b.filterMap (fun e =>
    if lookupOr0 a e.1 ≠ 0 then none
    else
      let newValue := mapper 0 e.2 e.1
      if newValue = 0 then none else some (e.1, newValue))

/-- Source `mapUnits`: all units from `a` first (reading the matching
exponent of `b` via `b[key] || 0`), then the remaining units of `b` (those
with `a[key]` falsy), again omitting zero results. -/
def mapUnits (a b : UnitLookup) (mapper : ℚ → ℚ → String → ℚ) : UnitLookup :=
  let result := mapUnit a (fun value key => mapper value (lookupOr0 b key) key)
  result ++ mapUnitsRest a b mapper

/-- Shape dispatch of `handleCases` once neither operand is a `unit`: the
`switch` over the dynamic tags; an absent combinator, or any pair not
covered, falls through to the final throw. -/
def dispatchCases (a b : ResultTree)
    (numberNumber : Option (ℚ → ℚ → Except String ResultTree))
    (numberMatrix : Option (ℚ → MatrixData → Except String ResultTree))
    (matrixNumber : Option (MatrixData → ℚ → Except String ResultTree))
    (matrixMatrix : Option (MatrixData → MatrixData → Except String ResultTree)) :
    Except String ResultTree :=
  match a, b with
  | .number av, .number bv =>
    match numberNumber with
    | some f => f av bv
    | none => .error "Equation resolve: cannot handle operator"
  | .number av, .matrix bd =>
    match numberMatrix with
    | some f => f av bd
    | none => .error "Equation resolve: cannot handle operator"
  | .matrix ad, .number bv =>
    match matrixNumber with
    | some f => f ad bv
    | none => .error "Equation resolve: cannot handle operator"
  | .matrix ad, .matrix bd =>
    match matrixMatrix with
    | some f => f ad bd
    | none => .error "Equation resolve: cannot handle operator"
  | _, _ => .error "Equation resolve: cannot handle operator"

/-- Fuel-indexed worker for `handleCases`; the fuel bounds the number of
unit-unwrapping steps and is supplied exactly by `handleCases`. -/
def handleCasesFuel
    (combineUnits : UnitLookup → UnitLookup → Except String UnitLookup)
    (numberNumber : Option (ℚ → ℚ → Except String ResultTree))
    (numberMatrix : Option (ℚ → MatrixData → Except String ResultTree))
    (matrixNumber : Option (MatrixData → ℚ → Except String ResultTree))
    (matrixMatrix : Option (MatrixData → MatrixData → Except String ResultTree)) :
    ℕ → ResultTree → ResultTree → Except String ResultTree
  | 0, a, b => dispatchCases a b numberNumber numberMatrix matrixNumber matrixMatrix
  | fuel + 1, a, b =>
    if a.isUnit || b.isUnit then
      match combineUnits (getUnit a) (getUnit b) with
      | .error e => .error e
      | .ok units =>
        match handleCasesFuel combineUnits numberNumber numberMatrix matrixNumber
            matrixMatrix fuel (getUnitless a) (getUnitless b) with
        | .error e => .error e
        | .ok result =>
          if isEmptyUnit units then .ok result else .ok (.unit units result)
    else dispatchCases a b numberNumber numberMatrix matrixNumber matrixMatrix

/-- Source `handleCases`: if either operand is a `unit`, combine the unit
maps, recurse on the unit-stripped payloads and re-wrap (unless the combined
map is empty); otherwise dispatch on the pair of dynamic shapes. -/
def handleCases (a b : ResultTree)
    (combineUnits : UnitLookup → UnitLookup → Except String UnitLookup)
    (numberNumber : Option (ℚ → ℚ → Except String ResultTree))
    (numberMatrix : Option (ℚ → MatrixData → Except String ResultTree))
    (matrixNumber : Option (MatrixData → ℚ → Except String ResultTree))
    (matrixMatrix : Option (MatrixData → MatrixData → Except String ResultTree)) :
    Except String ResultTree :=
  handleCasesFuel combineUnits numberNumber numberMatrix matrixNumber matrixMatrix
    (a.unitDepth + b.unitDepth) a b

/-- Source `plus`: unit rule requires identical units (returning the left
map); scalars add; a scalar is added to every cell of a matrix; two matrices
add element-wise after a shape check.  The per-cell recursive calls
`plus(a, cell)` always receive two bare numbers and are embedded as the
scalar sum (certified by `plus_number_number`). -/
def plus (aTree bTree : ResultTree) : Except String ResultTree :=
  handleCases aTree bTree
    (fun a b =>
      if isSameUnit a b then .ok a
      else .error "Equation resolve: cannot add different units")
    (some fun a b => .ok (valueWrap (a + b)))
    (some fun a b =>
      match mapMatrix b (fun cell => .ok (a + cell)) with
      | .error e => .error e
      | .ok d => .ok (.matrix d))
    (some fun a b =>
      match mapMatrix a (fun cell => .ok (cell + b)) with
      | .error e => .error e
      | .ok d => .ok (.matrix d))
    (some fun a b =>
      if a.n ≠ b.n ∨ a.m ≠ b.m then
        .error ("Equation resolve: cannot add " ++ toString a.m ++ "x" ++ toString a.n ++
          " matrix to " ++ toString b.m ++ "x" ++ toString b.n ++ " matrix")
      else
        .ok (.matrix ⟨a.m, a.n,
          a.values.mapIdx (fun rowIdx row =>
            row.mapIdx (fun cellIdx cell =>
              cell + ((b.values.getD rowIdx []).getD cellIdx 0)))⟩))

/-- Source `minus`: `plus(a, negate(b))`. -/
def minus (a b : ResultTree) : Except String ResultTree :=
  plus a (negate b)

/-- Source `plusminus`: always throws. -/
def plusminus (_a _b : ResultTree) : Except String ResultTree :=
  .error "Equation resolve: cannot handle ± operator"

/-- Source `scalarProduct`: requires equal row counts, then sums the products
of the first cells of corresponding rows (`row[0] * b.values[rowIdx][0]`). -/
def scalarProduct (a b : MatrixData) : Except String ResultTree :=
  if a.m ≠ b.m then
    .error "Equation resolve: scalar product requires balanced vectors"
  else
    .ok (valueWrap (a.values.enum.foldl
      (fun current p => current + p.2.getD 0 0 * ((b.values.getD p.1 []).getD 0 0)) 0))

/-- Source `matrixProduct`: requires `a.n == b.m`; the result grid has a row
per row of `a` and a cell per cell of `b.values[0]`, each the inner-product
fold over the corresponding row of `a` and column of `b`. -/
def matrixProduct (a b : MatrixData) : Except String ResultTree :=
  if a.n ≠ b.m then
    .error ("Equation resolve: cannot multiply " ++ toString a.m ++ "x" ++ toString a.n ++
      " matrix with " ++ toString b.m ++ "x" ++ toString b.n ++ " matrix")
  else
    .ok (.matrix ⟨a.m, b.n,
      a.values.mapIdx (fun _aRow row =>
        (b.values.getD 0 []).mapIdx (fun bCol _cell =>
          row.enum.foldl
            (fun current p => current + p.2 * ((b.values.getD p.1 []).getD bCol 0)) 0))⟩)

/-- Source `multiply`: unit exponents add per key; scalars multiply; a scalar
multiplies every cell of a matrix; for two matrices, two column vectors take
the scalar product and any other pair the matrix product. -/
def multiply (aTree bTree : ResultTree) : Except String ResultTree :=
  handleCases aTree bTree
    (fun a b => .ok (mapUnits a b (fun unit1 unit2 _ => unit1 + unit2)))
    (some fun a b => .ok (valueWrap (a * b)))
    (some fun a b =>
      match mapMatrix b (fun cell => .ok (a * cell)) with
      | .error e => .error e
      | .ok d => .ok (.matrix d))
    (some fun a b =>
      match mapMatrix a (fun cell => .ok (cell * b)) with
      | .error e => .error e
      | .ok d => .ok (.matrix d))
    (some fun a b =>
      if a.n = 1 ∧ b.n = 1 then scalarProduct a b else matrixProduct a b)

/-- Source `multiplyImplied`: rejects the scalar product of two bare column
vectors, otherwise delegates to `multiply`. -/
def multiplyImplied (a b : ResultTree) : Except String ResultTree :=
  match a, b with
  | .matrix da, .matrix db =>
    if da.n = 1 ∧ db.n = 1 then
      .error "Equation resolve: cannot use implied multiplication for scalar product"
    else multiply a b
  | _, _ => multiply a b

/-- Scalar core of `divide`: the per-cell recursive call `divide(a, cell)` on
two bare numbers re-applies the zero check before dividing (certified against
the full operator by `divide_number_number`). -/
def divideNN (a b : ℚ) : Except String ℚ :=
  if b = 0 then .error "Equation resolve: cannot divide by 0" else .ok (a / b)

/-- Source `divide`: throws when the divisor is a bare number equal to `0`,
then dispatches with unit exponents subtracting per key; matrix-matrix
division is unsupported. -/
def divide (aTree bTree : ResultTree) : Except String ResultTree :=
  if (match bTree with | .number v => decide (v = 0) | _ => false : Bool) then
    .error "Equation resolve: cannot divide by 0"
  else
    handleCases aTree bTree
      (fun a b => .ok (mapUnits a b (fun factor1 factor2 _ => factor1 - factor2)))
      (some fun a b => .ok (valueWrap (a / b)))
      (some fun a b =>
        match mapMatrix b (fun cell => divideNN a cell) with
        | .error e => .error e
        | .ok d => .ok (.matrix d))
      (some fun a b =>
        match mapMatrix a (fun cell => divideNN cell b) with
        | .error e => .error e
        | .ok d => .ok (.matrix d))
      none

/-- Modelled from the spec: the IEEE `Math.pow` used by the source, restricted
to the rational model; it is exact for integer exponents, the only exponents
exercised by the specification's examples. -/
def mathPow (a b : ℚ) : ℚ :=
  if b.den = 1 then a ^ b.num else 0

/-- Source `power`: the exponent must be a bare number (unit-wrapped
exponents and matrix exponents throw); the left operand's unit exponents are
multiplied by the exponent value; scalars and matrix cells are raised
point-wise; number-matrix and matrix-matrix are unsupported. -/
def power (aTree bTree : ResultTree) : Except String ResultTree :=
  match bTree with
  | .unit _ _ => .error "Equation resolve: exponent must be unitless"
  | .matrix _ => .error "Equation resolve: exponent must be a number"
  | .number bv =>
    handleCases aTree (.number bv)
      (fun a _ => .ok (mapUnit a (fun factor _ => factor * bv)))
      (some fun a b => .ok (valueWrap (mathPow a b)))
      none
      (some fun a b =>
        match mapMatrix a (fun cell => .ok (mathPow cell b)) with
        | .error e => .error e
        | .ok d => .ok (.matrix d))
      none

/-- Source operator dispatch table. -/
def operators (op : String) : Option (ResultTree → ResultTree → Except String ResultTree) :=
  if op = "+" then some plus
  else if op = "-" then some minus
  else if op = "±" then some plusminus
  else if op = "*" then some multiply
  else if op = "**" then some multiplyImplied
  else if op = "/" then some divide
  else if op = "^" then some power
  else none

section HandleCasesLemmas

theorem unitDepth_eq_zero {a : ResultTree} (h : a.isUnit = false) : a.unitDepth = 0 := by
  cases a <;> simp_all [ResultTree.isUnit, ResultTree.unitDepth]

theorem handleCasesFuel_nonunit
    (cu : UnitLookup → UnitLookup → Except String UnitLookup)
    (nn : Option (ℚ → ℚ → Except String ResultTree))
    (nm : Option (ℚ → MatrixData → Except String ResultTree))
    (mn : Option (MatrixData → ℚ → Except String ResultTree))
    (mm : Option (MatrixData → MatrixData → Except String ResultTree))
    (fuel : ℕ) {a b : ResultTree} (ha : a.isUnit = false) (hb : b.isUnit = false) :
    handleCasesFuel cu nn nm mn mm fuel a b = dispatchCases a b nn nm mn mm := by
  cases fuel with
  | zero => rfl
  | succ fuel => simp [handleCasesFuel, ha, hb]

theorem handleCases_nonunit
    {a b : ResultTree} (ha : a.isUnit = false) (hb : b.isUnit = false)
    (cu : UnitLookup → UnitLookup → Except String UnitLookup)
    (nn : Option (ℚ → ℚ → Except String ResultTree))
    (nm : Option (ℚ → MatrixData → Except String ResultTree))
    (mn : Option (MatrixData → ℚ → Except String ResultTree))
    (mm : Option (MatrixData → MatrixData → Except String ResultTree)) :
    handleCases a b cu nn nm mn mm = dispatchCases a b nn nm mn mm :=
  handleCasesFuel_nonunit cu nn nm mn mm _ ha hb

theorem handleCases_unit_left
    {u : UnitLookup} {v b : ResultTree} (hv : v.isUnit = false) (hb : b.isUnit = false)
    (cu : UnitLookup → UnitLookup → Except String UnitLookup)
    (nn : Option (ℚ → ℚ → Except String ResultTree))
    (nm : Option (ℚ → MatrixData → Except String ResultTree))
    (mn : Option (MatrixData → ℚ → Except String ResultTree))
    (mm : Option (MatrixData → MatrixData → Except String ResultTree)) :
    handleCases (.unit u v) b cu nn nm mn mm =
      match cu u [] with
      | .error e => .error e
      | .ok units =>
        match dispatchCases v b nn nm mn mm with
        | .error e => .error e
        | .ok result =>
          if isEmptyUnit units then .ok result else .ok (.unit units result) := by
  cases v with
  | unit u' v' => simp [ResultTree.isUnit] at hv
  | number xv =>
    cases b with
    | unit w t => simp [ResultTree.isUnit] at hb
    | number yv => rfl
    | matrix bd => rfl
  | matrix ad =>
    cases b with
    | unit w t => simp [ResultTree.isUnit] at hb
    | number yv => rfl
    | matrix bd => rfl

theorem handleCases_unit_right
    {a : ResultTree} {w : UnitLookup} {t : ResultTree}
    (ha : a.isUnit = false) (ht : t.isUnit = false)
    (cu : UnitLookup → UnitLookup → Except String UnitLookup)
    (nn : Option (ℚ → ℚ → Except String ResultTree))
    (nm : Option (ℚ → MatrixData → Except String ResultTree))
    (mn : Option (MatrixData → ℚ → Except String ResultTree))
    (mm : Option (MatrixData → MatrixData → Except String ResultTree)) :
    handleCases a (.unit w t) cu nn nm mn mm =
      match cu [] w with
      | .error e => .error e
      | .ok units =>
        match dispatchCases a t nn nm mn mm with
        | .error e => .error e
        | .ok result =>
          if isEmptyUnit units then .ok result else .ok (.unit units result) := by
  cases a with
  | unit u' v' => simp [ResultTree.isUnit] at ha
  | number xv =>
    cases t with
    | unit w' t' => simp [ResultTree.isUnit] at ht
    | number yv => rfl
    | matrix bd => rfl
  | matrix ad =>
    cases t with
    | unit w' t' => simp [ResultTree.isUnit] at ht
    | number yv => rfl
    | matrix bd => rfl

theorem handleCases_unit_unit
    {u : UnitLookup} {v : ResultTree} {w : UnitLookup} {t : ResultTree}
    (hv : v.isUnit = false) (ht : t.isUnit = false)
    (cu : UnitLookup → UnitLookup → Except String UnitLookup)
    (nn : Option (ℚ → ℚ → Except String ResultTree))
    (nm : Option (ℚ → MatrixData → Except String ResultTree))
    (mn : Option (MatrixData → ℚ → Except String ResultTree))
    (mm : Option (MatrixData → MatrixData → Except String ResultTree)) :
    handleCases (.unit u v) (.unit w t) cu nn nm mn mm =
      match cu u w with
      | .error e => .error e
      | .ok units =>
        match dispatchCases v t nn nm mn mm with
        | .error e => .error e
        | .ok result =>
          if isEmptyUnit units then .ok result else .ok (.unit units result) := by
  cases v with
  | unit u' v' => simp [ResultTree.isUnit] at hv
  | number xv =>
    cases t with
    | unit w' t' => simp [ResultTree.isUnit] at ht
    | number yv => rfl
    | matrix bd => rfl
  | matrix ad =>
    cases t with
    | unit w' t' => simp [ResultTree.isUnit] at ht
    | number yv => rfl
    | matrix bd => rfl

end HandleCasesLemmas

section UnitAlgebra

/-- UnitMap invariant of the data model: duplicate-free keys and no entry
with exponent `0`. -/
def UnitLookup.valid (l : UnitLookup) : Prop :=
  (l.map Prod.fst).Nodup ∧ ∀ e ∈ l, e.2 ≠ 0

instance (l : UnitLookup) : Decidable l.valid := by
  unfold UnitLookup.valid
  infer_instance

theorem lookupOr0_cons {k' : String} {v : ℚ} {t : UnitLookup} {k : String} :
    lookupOr0 ((k', v) :: t) k = if k' = k then v else lookupOr0 t k := rfl

theorem lookupOr0_not_mem {l : UnitLookup} {k : String}
    (h : k ∉ l.map Prod.fst) : lookupOr0 l k = 0 := by
  induction l with
  | nil => rfl
  | cons e t ih =>
    simp only [List.map_cons, List.mem_cons, not_or] at h
    obtain ⟨h1, h2⟩ := h
    cases e with
    | mk k' v => rw [lookupOr0_cons, if_neg (fun hh => h1 hh.symm)]; exact ih h2

theorem lookupOr0_mem {l : UnitLookup} {k : String} {v : ℚ}
    (hnd : (l.map Prod.fst).Nodup) (he : (k, v) ∈ l) : lookupOr0 l k = v := by
  induction l with
  | nil => simp at he
  | cons e t ih =>
    simp only [List.map_cons, List.nodup_cons] at hnd
    obtain ⟨hk, hnd⟩ := hnd
    rcases List.mem_cons.1 he with h | h
    · subst h; rw [lookupOr0_cons, if_pos rfl]
    · cases e with
      | mk k' v' =>
        rw [lookupOr0_cons]
        by_cases hkk : k' = k
        · subst hkk
          exact absurd (List.mem_map.2 ⟨(k', v), h, rfl⟩) hk
        · rw [if_neg hkk]; exact ih hnd h

theorem mem_keys_of_lookupOr0_ne_zero {l : UnitLookup} {k : String}
    (h : lookupOr0 l k ≠ 0) : k ∈ l.map Prod.fst := by
  by_contra hm
  exact h (lookupOr0_not_mem hm)

theorem lookupOr0_ne_zero_of_mem {l : UnitLookup} {k : String}
    (hv : ∀ e ∈ l, e.2 ≠ 0) (hnd : (l.map Prod.fst).Nodup)
    (h : k ∈ l.map Prod.fst) : lookupOr0 l k ≠ 0 := by
  rcases List.mem_map.1 h with ⟨e, he, hk⟩
  cases e with
  | mk k' v =>
    cases hk
    rw [lookupOr0_mem hnd he]
    exact hv (k', v) he

theorem mapUnit_nil (f : ℚ → String → ℚ) : mapUnit [] f = [] := rfl

theorem mapUnit_cons (e : String × ℚ) (t : UnitLookup) (f : ℚ → String → ℚ) :
    mapUnit (e :: t) f =
      if f e.2 e.1 = 0 then mapUnit t f else (e.1, f e.2 e.1) :: mapUnit t f := by
  simp only [mapUnit, List.filterMap_cons]
  by_cases h : f e.2 e.1 = 0 <;> simp [h]

theorem keys_mapUnit_sublist (x : UnitLookup) (f : ℚ → String → ℚ) :
    ((mapUnit x f).map Prod.fst).Sublist (x.map Prod.fst) := by
  induction x with
  | nil => simp [mapUnit]
  | cons e t ih =>
    rw [mapUnit_cons]
    by_cases h : f e.2 e.1 = 0
    · rw [if_pos h]
      exact ih.trans (List.sublist_cons_self _ _)
    · rw [if_neg h]
      simpa using List.Sublist.cons₂ e.1 ih

theorem mapUnit_nozero {x : UnitLookup} {f : ℚ → String → ℚ} :
    ∀ e ∈ mapUnit x f, e.2 ≠ 0 := by
  intro e he
  rcases List.mem_filterMap.1 he with ⟨e₀, _, hmap⟩
  by_cases h0 : f e₀.2 e₀.1 = 0
  · simp [h0] at hmap
  · simp only [if_neg h0] at hmap
    cases hmap
    exact h0

theorem lookupOr0_mapUnit {x : UnitLookup} (f : ℚ → String → ℚ) {k : String}
    (hnd : (x.map Prod.fst).Nodup) :
    lookupOr0 (mapUnit x f) k =
      if k ∈ x.map Prod.fst then
        (if f (lookupOr0 x k) k = 0 then 0 else f (lookupOr0 x k) k)
      else 0 := by
  induction x with
  | nil => simp [mapUnit_nil, lookupOr0]
  | cons e t ih =>
    simp only [List.map_cons, List.nodup_cons] at hnd
    obtain ⟨hk, hnd⟩ := hnd
    rw [mapUnit_cons]
    cases e with
    | mk k' v' =>
      by_cases hkk : k' = k
      · subst hkk
        rw [lookupOr0_cons, if_pos rfl]
        have hmem : k' ∈ List.map Prod.fst ((k', v') :: t) := by simp
        rw [if_pos hmem]
        by_cases h0 : f v' k' = 0
        · rw [if_pos h0, if_pos h0]
          have hnm : k' ∉ (mapUnit t f).map Prod.fst :=
            fun hmm => hk ((keys_mapUnit_sublist t f).mem hmm)
          exact lookupOr0_not_mem hnm
        · rw [if_neg h0, if_neg h0, lookupOr0_cons, if_pos rfl]
      · rw [lookupOr0_cons, if_neg hkk]
        have hmem : (k ∈ List.map Prod.fst ((k', v') :: t)) ↔ (k ∈ List.map Prod.fst t) := by
          simp only [List.map_cons, List.mem_cons]
          exact or_iff_right (fun h => hkk h.symm)
        rw [if_congr hmem rfl rfl]
        by_cases h0 : f v' k' = 0
        · rw [if_pos h0]
          exact ih hnd
        · rw [if_neg h0, lookupOr0_cons, if_neg hkk]
          exact ih hnd

end UnitAlgebra


section MapUnitsLemmas

theorem lookupOr0_append {l1 l2 : UnitLookup} {k : String} :
    lookupOr0 (l1 ++ l2) k =
      if k ∈ l1.map Prod.fst then lookupOr0 l1 k else lookupOr0 l2 k := by
  induction l1 with
  | nil => simp [lookupOr0]
  | cons e t ih =>
    cases e with
    | mk k' v' =>
      by_cases hkk : k' = k
      · subst hkk
        rw [List.cons_append, lookupOr0_cons, if_pos rfl]
        rw [if_pos (show k' ∈ List.map Prod.fst ((k', v') :: t) by simp), lookupOr0_cons,
          if_pos rfl]
      · simp only [List.cons_append, lookupOr0_cons, if_neg hkk]
        rw [ih]
        have hmem : (k ∈ List.map Prod.fst ((k', v') :: t)) ↔ (k ∈ List.map Prod.fst t) := by
          simp only [List.map_cons, List.mem_cons]
          exact or_iff_right (fun h => hkk h.symm)
        rw [if_congr hmem.symm rfl rfl]

theorem mapUnitsRest_nil (a : UnitLookup) (f : ℚ → ℚ → String → ℚ) :
    mapUnitsRest a [] f = [] := rfl

theorem mapUnitsRest_cons (a : UnitLookup) (e : String × ℚ) (t : UnitLookup)
    (f : ℚ → ℚ → String → ℚ) :
    mapUnitsRest a (e :: t) f =
      if lookupOr0 a e.1 ≠ 0 then mapUnitsRest a t f
      else if f 0 e.2 e.1 = 0 then mapUnitsRest a t f
      else (e.1, f 0 e.2 e.1) :: mapUnitsRest a t f := by
  simp only [mapUnitsRest, List.filterMap_cons]
  by_cases hg : lookupOr0 a e.1 ≠ 0
  · simp [hg]
  · by_cases h0 : f 0 e.2 e.1 = 0 <;> simp [hg, h0]

theorem keys_mapUnitsRest_sublist (a b : UnitLookup) (f : ℚ → ℚ → String → ℚ) :
    ((mapUnitsRest a b f).map Prod.fst).Sublist (b.map Prod.fst) := by
  induction b with
  | nil => simp [mapUnitsRest_nil]
  | cons e t ih =>
    rw [mapUnitsRest_cons]
    by_cases hg : lookupOr0 a e.1 ≠ 0
    · rw [if_pos hg]
      exact ih.trans (List.sublist_cons_self _ _)
    · rw [if_neg hg]
      by_cases h0 : f 0 e.2 e.1 = 0
      · rw [if_pos h0]
        exact ih.trans (List.sublist_cons_self _ _)
      · rw [if_neg h0]
        simpa using List.Sublist.cons₂ e.1 ih

theorem mapUnitsRest_nozero {a b : UnitLookup} {f : ℚ → ℚ → String → ℚ} :
    ∀ e ∈ mapUnitsRest a b f, e.2 ≠ 0 := by
  intro e he
  rcases List.mem_filterMap.1 he with ⟨e₀, _, hmap⟩
  by_cases hg : lookupOr0 a e₀.1 ≠ 0
  · simp [hg] at hmap
  · by_cases h0 : f 0 e₀.2 e₀.1 = 0
    · simp [hg, h0] at hmap
    · simp only [if_neg hg, if_neg h0] at hmap
      cases hmap
      exact h0

theorem mapUnitsRest_guard {a b : UnitLookup} {f : ℚ → ℚ → String → ℚ} :
    ∀ e ∈ mapUnitsRest a b f, lookupOr0 a e.1 = 0 := by
  intro e he
  rcases List.mem_filterMap.1 he with ⟨e₀, _, hmap⟩
  by_cases hg : lookupOr0 a e₀.1 ≠ 0
  · simp [hg] at hmap
  · by_cases h0 : f 0 e₀.2 e₀.1 = 0
    · simp [hg, h0] at hmap
    · simp only [if_neg hg, if_neg h0] at hmap
      cases hmap
      simpa using hg

theorem lookupOr0_mapUnitsRest {a b : UnitLookup} (f : ℚ → ℚ → String → ℚ) {k : String}
    (hndb : (b.map Prod.fst).Nodup) :
    lookupOr0 (mapUnitsRest a b f) k =
      if k ∈ b.map Prod.fst ∧ lookupOr0 a k = 0 then
        (if f 0 (lookupOr0 b k) k = 0 then 0 else f 0 (lookupOr0 b k) k)
      else 0 := by
  induction b with
  | nil => simp [mapUnitsRest_nil, lookupOr0]
  | cons e t ih =>
    simp only [List.map_cons, List.nodup_cons] at hndb
    obtain ⟨hk, hndb⟩ := hndb
    rw [mapUnitsRest_cons]
    cases e with
    | mk k' v' =>
      by_cases hkk : k' = k
      · subst hkk
        have hmem : k' ∈ List.map Prod.fst ((k', v') :: t) := by simp
        have hnotm : k' ∉ (mapUnitsRest a t f).map Prod.fst :=
          fun hmm => hk ((keys_mapUnitsRest_sublist a t f).mem hmm)
        rw [lookupOr0_cons, if_pos rfl]
        by_cases hg : lookupOr0 a k' ≠ 0
        · rw [if_pos hg, lookupOr0_not_mem hnotm]
          rw [if_neg (fun hc => hg hc.2)]
        · push_neg at hg
          have hcond : k' ∈ List.map Prod.fst ((k', v') :: t) ∧ lookupOr0 a k' = 0 :=
            ⟨hmem, hg⟩
          rw [if_neg (show ¬lookupOr0 a k' ≠ 0 by simpa using hg)]
          by_cases h0 : f 0 v' k' = 0
          · rw [if_pos h0, lookupOr0_not_mem hnotm, if_pos hcond, if_pos h0]
          · rw [if_neg h0, lookupOr0_cons, if_pos rfl, if_pos hcond, if_neg h0]
      · have hmem : (k ∈ List.map Prod.fst ((k', v') :: t)) ↔ (k ∈ List.map Prod.fst t) := by
          simp only [List.map_cons, List.mem_cons]
          exact or_iff_right (fun h => hkk h.symm)
        have hlk : lookupOr0 ((k', v') :: t) k = lookupOr0 t k := by
          rw [lookupOr0_cons, if_neg hkk]
        rw [hlk]
        rw [if_congr (and_congr_left' hmem) rfl rfl]
        by_cases hg : lookupOr0 a k' ≠ 0
        · rw [if_pos hg]
          exact ih hndb
        · rw [if_neg hg]
          by_cases h0 : f 0 v' k' = 0
          · rw [if_pos h0]
            exact ih hndb
          · rw [if_neg h0, lookupOr0_cons, if_neg hkk]
            exact ih hndb

theorem mapUnits_nozero {a b : UnitLookup} {f : ℚ → ℚ → String → ℚ} :
    ∀ e ∈ mapUnits a b f, e.2 ≠ 0 := by
  intro e he
  rcases List.mem_append.1 he with h | h
  · exact mapUnit_nozero e h
  · exact mapUnitsRest_nozero e h

theorem keys_mapUnits_nodup {a b : UnitLookup} {f : ℚ → ℚ → String → ℚ}
    (ha : a.valid) (hndb : (b.map Prod.fst).Nodup) :
    ((mapUnits a b f).map Prod.fst).Nodup := by
  obtain ⟨hnda, hza⟩ := ha
  rw [mapUnits, List.map_append, List.nodup_append]
  refine ⟨(keys_mapUnit_sublist _ _).nodup hnda,
    (keys_mapUnitsRest_sublist _ _ _).nodup hndb, ?_⟩
  intro k hk1 hk2
  have hka : k ∈ a.map Prod.fst := (keys_mapUnit_sublist _ _).mem hk1
  have hne : lookupOr0 a k ≠ 0 := lookupOr0_ne_zero_of_mem hza hnda hka
  rcases List.mem_map.1 hk2 with ⟨e, he, hek⟩
  cases hek
  exact hne (mapUnitsRest_guard e he)

theorem lookupOr0_mapUnits {a b : UnitLookup} (f : ℚ → ℚ → String → ℚ) {k : String}
    (ha : a.valid) (hndb : (b.map Prod.fst).Nodup) :
    lookupOr0 (mapUnits a b f) k =
      if k ∈ a.map Prod.fst ∨ k ∈ b.map Prod.fst then
        (if f (lookupOr0 a k) (lookupOr0 b k) k = 0 then 0
         else f (lookupOr0 a k) (lookupOr0 b k) k)
      else 0 := by
  obtain ⟨hnda, hza⟩ := ha
  simp only [mapUnits]
  rw [lookupOr0_append]
  by_cases hma : k ∈ a.map Prod.fst
  · have hva : lookupOr0 a k ≠ 0 := lookupOr0_ne_zero_of_mem hza hnda hma
    by_cases h0 : f (lookupOr0 a k) (lookupOr0 b k) k = 0
    · rw [if_pos (Or.inl hma), if_pos h0]
      by_cases hm1 : k ∈ (mapUnit a fun value key => f value (lookupOr0 b key) key).map Prod.fst
      · rw [if_pos hm1, lookupOr0_mapUnit _ hnda, if_pos hma, if_pos h0]
      · rw [if_neg hm1, lookupOr0_mapUnitsRest _ hndb,
          if_neg (fun hc => hva hc.2)]
    · have hl1 : lookupOr0 (mapUnit a fun value key => f value (lookupOr0 b key) key) k =
          f (lookupOr0 a k) (lookupOr0 b k) k := by
        rw [lookupOr0_mapUnit _ hnda, if_pos hma, if_neg h0]
      have hm1 : k ∈ (mapUnit a fun value key => f value (lookupOr0 b key) key).map Prod.fst := by
        apply mem_keys_of_lookupOr0_ne_zero
        rw [hl1]; exact h0
      rw [if_pos hm1, hl1, if_pos (Or.inl hma), if_neg h0]
  · have hva : lookupOr0 a k = 0 := lookupOr0_not_mem hma
    have hm1 : k ∉ (mapUnit a fun value key => f value (lookupOr0 b key) key).map Prod.fst :=
      fun hmm => hma ((keys_mapUnit_sublist _ _).mem hmm)
    rw [if_neg hm1, lookupOr0_mapUnitsRest _ hndb]
    by_cases hmb : k ∈ b.map Prod.fst
    · rw [if_pos ⟨hmb, hva⟩, if_pos (Or.inr hmb), hva]
    · rw [if_neg (fun hc => hmb hc.1), if_neg (by tauto)]

end MapUnitsLemmas

section Equivalences

/-- Extensional equality of unit maps: the JavaScript deep equality of the
underlying objects, which ignores key insertion order. -/
def unitEquiv (a b : UnitLookup) : Prop :=
  ∀ k, lookupOr0 a k = lookupOr0 b k

/-- Extensional equality of result values: structural equality with unit
maps compared extensionally. -/
def treeEquiv : ResultTree → ResultTree → Prop
  | .number x, .number y => x = y
  | .matrix d1, .matrix d2 => d1 = d2
  | .unit u1 v1, .unit u2 v2 => unitEquiv u1 u2 ∧ treeEquiv v1 v2
  | _, _ => False

/-- Extensional equality of evaluation outcomes: identical errors, or
extensionally equal result values. -/
def exceptEquiv : Except String ResultTree → Except String ResultTree → Prop
  | .ok r1, .ok r2 => treeEquiv r1 r2
  | .error e1, .error e2 => e1 = e2
  | _, _ => False

theorem treeEquiv_refl (r : ResultTree) : treeEquiv r r := by
  induction r with
  | number x => exact rfl
  | matrix d => exact rfl
  | unit u v ih => exact ⟨fun k => rfl, ih⟩

theorem exceptEquiv_of_eq {x y : Except String ResultTree} (h : x = y) : exceptEquiv x y := by
  subst h
  cases x with
  | ok r => exact treeEquiv_refl r
  | error e => exact rfl

theorem isSameUnit_iff {a b : UnitLookup} : isSameUnit a b = true ↔ unitEquiv a b := by
  constructor
  · intro h
    rw [isSameUnit, Bool.and_eq_true, List.all_eq_true, List.all_eq_true] at h
    obtain ⟨h1, h2⟩ := h
    intro k
    by_cases hma : k ∈ a.map Prod.fst
    · rcases List.mem_map.1 hma with ⟨e, he, hek⟩
      cases hek
      exact of_decide_eq_true (h1 e he)
    · by_cases hmb : k ∈ b.map Prod.fst
      · rcases List.mem_map.1 hmb with ⟨e, he, hek⟩
        cases hek
        exact of_decide_eq_true (h2 e he)
      · rw [lookupOr0_not_mem hma, lookupOr0_not_mem hmb]
  · intro h
    rw [isSameUnit, Bool.and_eq_true, List.all_eq_true, List.all_eq_true]
    exact ⟨fun e _ => decide_eq_true (h e.1), fun e _ => decide_eq_true (h e.1)⟩

theorem isSameUnit_self (u : UnitLookup) : isSameUnit u u = true :=
  isSameUnit_iff.2 (fun _ => rfl)

theorem isEmptyUnit_congr {a b : UnitLookup}
    (hza : ∀ e ∈ a, e.2 ≠ 0) (hzb : ∀ e ∈ b, e.2 ≠ 0)
    (h : unitEquiv a b) : isEmptyUnit a = isEmptyUnit b := by
  cases a with
  | nil =>
    cases b with
    | nil => rfl
    | cons e t =>
      exfalso
      have := h e.1
      cases e with
      | mk k v =>
        rw [lookupOr0_cons, if_pos rfl] at this
        exact hzb (k, v) (by simp) (by simpa [lookupOr0] using this.symm)
  | cons e t =>
    cases b with
    | nil =>
      exfalso
      have := h e.1
      cases e with
      | mk k v =>
        rw [lookupOr0_cons, if_pos rfl] at this
        exact hza (k, v) (by simp) (by simpa [lookupOr0] using this)
    | cons e' t' => rfl

theorem isSameUnit_nil_left {b : UnitLookup} (hzb : ∀ e ∈ b, e.2 ≠ 0) :
    isSameUnit [] b = isEmptyUnit b := by
  cases b with
  | nil => rfl
  | cons e t =>
    cases e with
    | mk k v =>
      have hne : ¬unitEquiv [] ((k, v) :: t) := by
        intro h
        have := h k
        rw [lookupOr0_cons, if_pos rfl] at this
        exact hzb (k, v) (by simp) (by simpa [lookupOr0] using this.symm)
      have : isSameUnit [] ((k, v) :: t) ≠ true := fun h => hne (isSameUnit_iff.1 h)
      simp only [isEmptyUnit, List.isEmpty_cons]
      exact Bool.eq_false_iff.2 this

theorem isSameUnit_nil_right {a : UnitLookup} (hza : ∀ e ∈ a, e.2 ≠ 0) :
    isSameUnit a [] = isEmptyUnit a := by
  cases a with
  | nil => rfl
  | cons e t =>
    cases e with
    | mk k v =>
      have hne : ¬unitEquiv ((k, v) :: t) [] := by
        intro h
        have := h k
        rw [lookupOr0_cons, if_pos rfl] at this
        exact hza (k, v) (by simp) (by simpa [lookupOr0] using this)
      have : isSameUnit ((k, v) :: t) [] ≠ true := fun h => hne (isSameUnit_iff.1 h)
      simp only [isEmptyUnit, List.isEmpty_cons]
      exact Bool.eq_false_iff.2 this

theorem mapUnits_equiv_comm {a b : UnitLookup} {f : ℚ → ℚ → String → ℚ}
    (ha : a.valid) (hb : b.valid) (hf : ∀ x y k, f x y k = f y x k) :
    unitEquiv (mapUnits a b f) (mapUnits b a f) := by
  intro k
  rw [lookupOr0_mapUnits f ha hb.1, lookupOr0_mapUnits f hb ha.1]
  rw [hf (lookupOr0 a k) (lookupOr0 b k) k]
  rw [if_congr or_comm rfl rfl]

theorem isEmptyUnit_mapUnits_comm {a b : UnitLookup} {f : ℚ → ℚ → String → ℚ}
    (ha : a.valid) (hb : b.valid) (hf : ∀ x y k, f x y k = f y x k) :
    isEmptyUnit (mapUnits a b f) = isEmptyUnit (mapUnits b a f) :=
  isEmptyUnit_congr mapUnits_nozero mapUnits_nozero (mapUnits_equiv_comm ha hb hf)

end Equivalences

section ScalarShapes

theorem plus_number_number (x y : ℚ) :
    plus (.number x) (.number y) = .ok (.number (x + y)) := rfl

theorem multiply_number_number (x y : ℚ) :
    multiply (.number x) (.number y) = .ok (.number (x * y)) := rfl

theorem divide_number_number (x y : ℚ) :
    divide (.number x) (.number y) = (divideNN x y).map .number := by
  by_cases h : y = 0
  · subst h
    simp [divide, divideNN, Except.map]
  · rw [divide, if_neg (by simpa using h), divideNN, if_neg h]
    rfl

theorem plus_number_unit (x y : ℚ) (u : UnitLookup) :
    plus (.number x) (.unit u (.number y)) =
      if isSameUnit [] u then .ok (.number (x + y))
      else .error "Equation resolve: cannot add different units" := by
  rw [plus, handleCases_unit_right (by rfl) (by rfl)]
  by_cases h : isSameUnit [] u
  · rw [if_pos h, if_pos h]
    rfl
  · rw [if_neg (by simpa using h), if_neg h]

theorem plus_unit_number (x y : ℚ) (u : UnitLookup) :
    plus (.unit u (.number x)) (.number y) =
      if isSameUnit u [] then
        (if isEmptyUnit u then .ok (.number (x + y)) else .ok (.unit u (.number (x + y))))
      else .error "Equation resolve: cannot add different units" := by
  rw [plus, handleCases_unit_left (by rfl) (by rfl)]
  by_cases h : isSameUnit u []
  · rw [if_pos h, if_pos h]
    by_cases he : isEmptyUnit u
    · rw [if_pos he]
      show (if isEmptyUnit u then _ else _) = _
      rw [if_pos he]
      rfl
    · rw [if_neg he]
      show (if isEmptyUnit u then _ else _) = _
      rw [if_neg he]
      rfl
  · rw [if_neg (by simpa using h), if_neg h]

theorem plus_unit_unit (x y : ℚ) (u w : UnitLookup) :
    plus (.unit u (.number x)) (.unit w (.number y)) =
      if isSameUnit u w then
        (if isEmptyUnit u then .ok (.number (x + y)) else .ok (.unit u (.number (x + y))))
      else .error "Equation resolve: cannot add different units" := by
  rw [plus, handleCases_unit_unit (by rfl) (by rfl)]
  by_cases h : isSameUnit u w
  · rw [if_pos h, if_pos h]
    by_cases he : isEmptyUnit u
    · rw [if_pos he]
      show (if isEmptyUnit u then _ else _) = _
      rw [if_pos he]
      rfl
    · rw [if_neg he]
      show (if isEmptyUnit u then _ else _) = _
      rw [if_neg he]
      rfl
  · rw [if_neg (by simpa using h), if_neg h]

theorem multiply_number_unit (x y : ℚ) (u : UnitLookup) :
    multiply (.number x) (.unit u (.number y)) =
      if isEmptyUnit (mapUnits [] u (fun unit1 unit2 _ => unit1 + unit2)) then
        .ok (.number (x * y))
      else
        .ok (.unit (mapUnits [] u (fun unit1 unit2 _ => unit1 + unit2)) (.number (x * y))) := by
  rw [multiply, handleCases_unit_right (by rfl) (by rfl)]
  by_cases he : isEmptyUnit (mapUnits [] u (fun unit1 unit2 _ => unit1 + unit2))
  · rw [if_pos he]
    show (if isEmptyUnit _ then _ else _) = _
    rw [if_pos he]
    rfl
  · rw [if_neg he]
    show (if isEmptyUnit _ then _ else _) = _
    rw [if_neg he]
    rfl

theorem multiply_unit_number (x y : ℚ) (u : UnitLookup) :
    multiply (.unit u (.number x)) (.number y) =
      if isEmptyUnit (mapUnits u [] (fun unit1 unit2 _ => unit1 + unit2)) then
        .ok (.number (x * y))
      else
        .ok (.unit (mapUnits u [] (fun unit1 unit2 _ => unit1 + unit2)) (.number (x * y))) := by
  rw [multiply, handleCases_unit_left (by rfl) (by rfl)]
  by_cases he : isEmptyUnit (mapUnits u [] (fun unit1 unit2 _ => unit1 + unit2))
  · rw [if_pos he]
    show (if isEmptyUnit _ then _ else _) = _
    rw [if_pos he]
    rfl
  · rw [if_neg he]
    show (if isEmptyUnit _ then _ else _) = _
    rw [if_neg he]
    rfl

theorem multiply_unit_unit (x y : ℚ) (u w : UnitLookup) :
    multiply (.unit u (.number x)) (.unit w (.number y)) =
      if isEmptyUnit (mapUnits u w (fun unit1 unit2 _ => unit1 + unit2)) then
        .ok (.number (x * y))
      else
        .ok (.unit (mapUnits u w (fun unit1 unit2 _ => unit1 + unit2)) (.number (x * y))) := by
  rw [multiply, handleCases_unit_unit (by rfl) (by rfl)]
  by_cases he : isEmptyUnit (mapUnits u w (fun unit1 unit2 _ => unit1 + unit2))
  · rw [if_pos he]
    show (if isEmptyUnit _ then _ else _) = _
    rw [if_pos he]
    rfl
  · rw [if_neg he]
    show (if isEmptyUnit _ then _ else _) = _
    rw [if_neg he]
    rfl

end ScalarShapes

section ClaimC8

/-- Validity of the unit map directly carried by an operand (trivial for
bare numbers and matrices). -/
def unitsValidAt : ResultTree → Prop
  | .unit u _ => u.valid
  | _ => True

instance : (t : ResultTree) → Decidable (unitsValidAt t) := fun t =>
  match t with
  | .unit u _ => inferInstanceAs (Decidable u.valid)
  | .number _ => inferInstanceAs (Decidable True)
  | .matrix _ => inferInstanceAs (Decidable True)

/-- C8: for all scalar (Number) operands `a` and `b` — bare or unit-wrapped,
with unit maps satisfying the UnitMap invariant — addition and
multiplication are commutative: `plus a b` equals `plus b a` and
`multiply a b` equals `multiply b a`, results being compared as JavaScript
deep equality (unit maps compared extensionally, ignoring insertion
order). -/
theorem c8_scalar_commutativity (a b : ResultTree)
    (hsa : a.isScalar = true) (hsb : b.isScalar = true)
    (hva : unitsValidAt a) (hvb : unitsValidAt b) :
    exceptEquiv (plus a b) (plus b a) ∧ exceptEquiv (multiply a b) (multiply b a) := by
  have hcomm : ∀ x y : ℚ, ∀ _k : String, x + y = y + x := fun x y _ => add_comm x y
  have hvnil : UnitLookup.valid ([] : UnitLookup) := ⟨List.nodup_nil, by simp⟩
  cases a with
  | matrix d => simp [ResultTree.isScalar] at hsa
  | number x =>
    cases b with
    | matrix d => simp [ResultTree.isScalar] at hsb
    | number y =>
      rw [plus_number_number, plus_number_number,
        multiply_number_number, multiply_number_number]
      exact ⟨exceptEquiv_of_eq (by rw [add_comm]), exceptEquiv_of_eq (by rw [mul_comm])⟩
    | unit w t =>
      cases t with
      | matrix d => simp [ResultTree.isScalar] at hsb
      | unit w' t' => simp [ResultTree.isScalar] at hsb
      | number y =>
        have hw : w.valid := hvb
        constructor
        · rw [plus_number_unit, plus_unit_number,
            isSameUnit_nil_left hw.2, isSameUnit_nil_right hw.2]
          by_cases he : isEmptyUnit w
          · have hwnil : w = [] := by simpa [isEmptyUnit, List.isEmpty_iff] using he
            subst hwnil
            rw [if_pos he, if_pos he, if_pos he]
            exact add_comm x y
          · rw [if_neg he, if_neg he]
            exact rfl
        · rw [multiply_number_unit, multiply_unit_number]
          have hequiv := mapUnits_equiv_comm hvnil hw hcomm
          have hempty := isEmptyUnit_mapUnits_comm hvnil hw hcomm
          by_cases he : isEmptyUnit (mapUnits [] w (fun unit1 unit2 _ => unit1 + unit2))
          · rw [if_pos he, if_pos (hempty ▸ he)]
            exact mul_comm x y
          · have he2 : ¬isEmptyUnit (mapUnits w [] (fun unit1 unit2 _ => unit1 + unit2)) = true := by
              rw [← hempty]; exact he
            rw [if_neg he, if_neg he2]
            exact ⟨hequiv, mul_comm x y⟩
  | unit u v =>
    cases v with
    | matrix d => simp [ResultTree.isScalar] at hsa
    | unit u' v' => simp [ResultTree.isScalar] at hsa
    | number x =>
      have hu : u.valid := hva
      cases b with
      | matrix d => simp [ResultTree.isScalar] at hsb
      | number y =>
        constructor
        · rw [plus_unit_number, plus_number_unit,
            isSameUnit_nil_left hu.2, isSameUnit_nil_right hu.2]
          by_cases he : isEmptyUnit u
          · have hunil : u = [] := by simpa [isEmptyUnit, List.isEmpty_iff] using he
            subst hunil
            rw [if_pos he, if_pos he, if_pos he]
            exact add_comm x y
          · rw [if_neg he, if_neg he]
            exact rfl
        · rw [multiply_unit_number, multiply_number_unit]
          have hequiv := mapUnits_equiv_comm hu hvnil hcomm
          have hempty := isEmptyUnit_mapUnits_comm hu hvnil hcomm
          by_cases he : isEmptyUnit (mapUnits u [] (fun unit1 unit2 _ => unit1 + unit2))
          · rw [if_pos he, if_pos (hempty ▸ he)]
            exact mul_comm x y
          · have he2 : ¬isEmptyUnit (mapUnits [] u (fun unit1 unit2 _ => unit1 + unit2)) = true := by
              rw [← hempty]; exact he
            rw [if_neg he, if_neg he2]
            exact ⟨hequiv, mul_comm x y⟩
      | unit w t =>
        cases t with
        | matrix d => simp [ResultTree.isScalar] at hsb
        | unit w' t' => simp [ResultTree.isScalar] at hsb
        | number y =>
          have hw : w.valid := hvb
          constructor
          · rw [plus_unit_unit, plus_unit_unit]
            by_cases hs : isSameUnit u w = true
            · have hequ : unitEquiv u w := isSameUnit_iff.1 hs
              have hs2 : isSameUnit w u = true := isSameUnit_iff.2 (fun k => (hequ k).symm)
              have hemp : isEmptyUnit u = isEmptyUnit w := isEmptyUnit_congr hu.2 hw.2 hequ
              rw [if_pos hs, if_pos hs2]
              by_cases he : isEmptyUnit u
              · rw [if_pos he, if_pos (hemp ▸ he)]
                exact add_comm x y
              · have he2 : ¬isEmptyUnit w = true := by rw [← hemp]; exact he
                rw [if_neg he, if_neg he2]
                exact ⟨hequ, add_comm x y⟩
            · have hs2 : ¬isSameUnit w u = true := fun hc =>
                hs (isSameUnit_iff.2 (fun k => (isSameUnit_iff.1 hc k).symm))
              rw [if_neg hs, if_neg hs2]
              exact rfl
          · rw [multiply_unit_unit, multiply_unit_unit]
            have hequiv := mapUnits_equiv_comm hu hw hcomm
            have hempty := isEmptyUnit_mapUnits_comm hu hw hcomm
            by_cases he : isEmptyUnit (mapUnits u w (fun unit1 unit2 _ => unit1 + unit2))
            · rw [if_pos he, if_pos (hempty ▸ he)]
              exact mul_comm x y
            · have he2 : ¬isEmptyUnit (mapUnits w u (fun unit1 unit2 _ => unit1 + unit2)) = true := by
                rw [← hempty]; exact he
              rw [if_neg he, if_neg he2]
              exact ⟨hequiv, mul_comm x y⟩

/-- Witness for C8 at the concrete operands `3[m]` and `4[m]`. -/
theorem c8_scalar_commutativity_witness :
    (ResultTree.unit [("m", 1)] (.number 3)).isScalar = true ∧
    (ResultTree.unit [("m", 1)] (.number 4)).isScalar = true ∧
    unitsValidAt (ResultTree.unit [("m", 1)] (.number 3)) ∧
    unitsValidAt (ResultTree.unit [("m", 1)] (.number 4)) ∧
    (exceptEquiv
      (plus (ResultTree.unit [("m", 1)] (.number 3)) (ResultTree.unit [("m", 1)] (.number 4)))
      (plus (ResultTree.unit [("m", 1)] (.number 4)) (ResultTree.unit [("m", 1)] (.number 3))) ∧
     exceptEquiv
      (multiply (ResultTree.unit [("m", 1)] (.number 3)) (ResultTree.unit [("m", 1)] (.number 4)))
      (multiply (ResultTree.unit [("m", 1)] (.number 4)) (ResultTree.unit [("m", 1)] (.number 3)))) :=
  ⟨by decide, by decide, by decide, by decide,
    c8_scalar_commutativity _ _ (by decide) (by decide) (by decide) (by decide)⟩

end ClaimC8

section ClaimC9

theorem mapUnit_eq_keys_filterMap {a : UnitLookup} (g : ℚ → String → ℚ)
    (hnd : (a.map Prod.fst).Nodup) :
    mapUnit a g = (a.map Prod.fst).filterMap
      (fun k => if g (lookupOr0 a k) k = 0 then none else some (k, g (lookupOr0 a k) k)) := by
  induction a with
  | nil => rfl
  | cons e t ih =>
    simp only [List.map_cons, List.nodup_cons] at hnd
    obtain ⟨hk, hnd⟩ := hnd
    rw [mapUnit_cons]
    cases e with
    | mk k' v' =>
      have hlk : lookupOr0 ((k', v') :: t) k' = v' := by rw [lookupOr0_cons, if_pos rfl]
      have htail : (List.map Prod.fst t).filterMap
          (fun k => if g (lookupOr0 ((k', v') :: t) k) k = 0 then none
            else some (k, g (lookupOr0 ((k', v') :: t) k) k)) =
          (List.map Prod.fst t).filterMap
          (fun k => if g (lookupOr0 t k) k = 0 then none else some (k, g (lookupOr0 t k) k)) := by
        apply List.filterMap_congr
        intro k hkm
        have hne : k' ≠ k := fun hc => hk (hc ▸ hkm)
        rw [lookupOr0_cons, if_neg hne]
      rw [List.map_cons, List.filterMap_cons, hlk]
      by_cases h0 : g v' k' = 0
      · simp only [h0, if_pos rfl]
        rw [htail]
        exact ih hnd
      · simp only [if_neg h0]
        rw [htail]
        rw [ih hnd]

theorem mapUnitsRest_eq_keys_filterMap {a b : UnitLookup} (f : ℚ → ℚ → String → ℚ)
    (ha : a.valid) (hndb : (b.map Prod.fst).Nodup) :
    mapUnitsRest a b f =
      ((b.map Prod.fst).filter (fun k => decide (k ∉ a.map Prod.fst))).filterMap
        (fun k =>
          if f (lookupOr0 a k) (lookupOr0 b k) k = 0 then none
          else some (k, f (lookupOr0 a k) (lookupOr0 b k) k)) := by
  induction b with
  | nil => rfl
  | cons e t ih =>
    simp only [List.map_cons, List.nodup_cons] at hndb
    obtain ⟨hk, hndb⟩ := hndb
    rw [mapUnitsRest_cons]
    cases e with
    | mk k' v' =>
      have hlk : lookupOr0 ((k', v') :: t) k' = v' := by rw [lookupOr0_cons, if_pos rfl]
      have htail : ((List.map Prod.fst t).filter (fun k => decide (k ∉ a.map Prod.fst))).filterMap
          (fun k => if f (lookupOr0 a k) (lookupOr0 ((k', v') :: t) k) k = 0 then none
            else some (k, f (lookupOr0 a k) (lookupOr0 ((k', v') :: t) k) k)) =
          ((List.map Prod.fst t).filter (fun k => decide (k ∉ a.map Prod.fst))).filterMap
          (fun k => if f (lookupOr0 a k) (lookupOr0 t k) k = 0 then none
            else some (k, f (lookupOr0 a k) (lookupOr0 t k) k)) := by
        apply List.filterMap_congr
        intro k hkm
        have hkt : k ∈ List.map Prod.fst t := (List.mem_filter.1 hkm).1
        have hne : k' ≠ k := fun hc => hk (hc ▸ hkt)
        rw [lookupOr0_cons, if_neg hne]
      rw [List.map_cons, List.filter_cons]
      by_cases hg : lookupOr0 a k' ≠ 0
      · have hmem : k' ∈ a.map Prod.fst := mem_keys_of_lookupOr0_ne_zero hg
        rw [if_pos hg]
        have : decide (k' ∉ a.map Prod.fst) = false := by simp [hmem]
        rw [this]
        simp only [Bool.false_eq_true, if_neg (by simp : ¬False)]
        rw [ih hndb]
        exact htail.symm
      · push_neg at hg
        have hmem : k' ∉ a.map Prod.fst := fun hc =>
          lookupOr0_ne_zero_of_mem ha.2 ha.1 hc hg
        rw [if_neg (show ¬lookupOr0 a k' ≠ 0 by simpa using hg)]
        have : decide (k' ∉ a.map Prod.fst) = true := by simp [hmem]
        rw [this]
        simp only [if_pos trivial]
        rw [List.filterMap_cons, hlk, hg]
        by_cases h0 : f 0 v' k' = 0
        · simp only [h0, if_pos rfl]
          rw [ih hndb]
          exact htail.symm
        · simp only [if_neg h0]
          rw [ih hndb]
          rw [htail]

theorem mapUnits_eq_union_filterMap {a b : UnitLookup} (f : ℚ → ℚ → String → ℚ)
    (ha : a.valid) (hb : b.valid) :
    mapUnits a b f =
      (a.map Prod.fst ++ (b.map Prod.fst).filter (fun k => decide (k ∉ a.map Prod.fst))).filterMap
        (fun k =>
          if f (lookupOr0 a k) (lookupOr0 b k) k = 0 then none
          else some (k, f (lookupOr0 a k) (lookupOr0 b k) k)) := by
  rw [List.filterMap_append]
  simp only [mapUnits]
  rw [mapUnit_eq_keys_filterMap (fun value key => f value (lookupOr0 b key) key) ha.1]
  rw [mapUnitsRest_eq_keys_filterMap f ha hb.1]

/-- C9: for `mapUnits a b f` on unit maps satisfying the no-zero-exponent
invariant, the mapper is applied exactly once for every key present in
either input — the result is a single `filterMap` pass over the
duplicate-free union of the key lists — and no key whose mapped value is
exactly `0` occurs in the result. -/
theorem c9_mapUnits_union_pruned (a b : UnitLookup) (f : ℚ → ℚ → String → ℚ)
    (ha : a.valid) (hb : b.valid) :
    (a.map Prod.fst ++ (b.map Prod.fst).filter (fun k => decide (k ∉ a.map Prod.fst))).Nodup ∧
    (∀ k, k ∈ a.map Prod.fst ++ (b.map Prod.fst).filter (fun k => decide (k ∉ a.map Prod.fst)) ↔
      (k ∈ a.map Prod.fst ∨ k ∈ b.map Prod.fst)) ∧
    mapUnits a b f =
      (a.map Prod.fst ++ (b.map Prod.fst).filter (fun k => decide (k ∉ a.map Prod.fst))).filterMap
        (fun k =>
          if f (lookupOr0 a k) (lookupOr0 b k) k = 0 then none
          else some (k, f (lookupOr0 a k) (lookupOr0 b k) k)) ∧
    (∀ k, f (lookupOr0 a k) (lookupOr0 b k) k = 0 → k ∉ (mapUnits a b f).map Prod.fst) := by
  refine ⟨?_, ?_, mapUnits_eq_union_filterMap f ha hb, ?_⟩
  · rw [List.nodup_append]
    refine ⟨ha.1, (List.filter_sublist _).nodup hb.1, ?_⟩
    intro k hk1 hk2
    have := (List.mem_filter.1 hk2).2
    simp only [decide_eq_true_eq] at this
    exact this hk1
  · intro k
    constructor
    · intro h
      rcases List.mem_append.1 h with h | h
      · exact Or.inl h
      · exact Or.inr (List.mem_filter.1 h).1
    · intro h
      by_cases hma : k ∈ a.map Prod.fst
      · exact List.mem_append.2 (Or.inl hma)
      · rcases h with h | h
        · exact absurd h hma
        · exact List.mem_append.2 (Or.inr (List.mem_filter.2 ⟨h, by simp [hma]⟩))
  · intro k h0 hmem
    rcases List.mem_map.1 hmem with ⟨e, he, hek⟩
    rw [mapUnits_eq_union_filterMap f ha hb] at he
    rcases List.mem_filterMap.1 he with ⟨k', _, hmap⟩
    by_cases hz : f (lookupOr0 a k') (lookupOr0 b k') k' = 0
    · simp [hz] at hmap
    · simp only [if_neg hz] at hmap
      cases hmap
      cases hek
      exact hz h0

/-- Witness for C9 at the concrete maps `{m: 1}` and `{m: -1, s: 2}` with
the subtracting mapper of `divide`. -/
theorem c9_mapUnits_union_pruned_witness :
    UnitLookup.valid [("m", 1)] ∧ UnitLookup.valid [("m", -1), ("s", 2)] ∧
    ((([("m", (1 : ℚ))].map Prod.fst ++
      ([("m", (-1 : ℚ)), ("s", 2)].map Prod.fst).filter
        (fun k => decide (k ∉ [("m", (1 : ℚ))].map Prod.fst))).Nodup) ∧
    (∀ k, k ∈ [("m", (1 : ℚ))].map Prod.fst ++
        ([("m", (-1 : ℚ)), ("s", 2)].map Prod.fst).filter
          (fun k => decide (k ∉ [("m", (1 : ℚ))].map Prod.fst)) ↔
      (k ∈ [("m", (1 : ℚ))].map Prod.fst ∨ k ∈ [("m", (-1 : ℚ)), ("s", 2)].map Prod.fst)) ∧
    mapUnits [("m", 1)] [("m", -1), ("s", 2)] (fun factor1 factor2 _ => factor1 - factor2) =
      ([("m", (1 : ℚ))].map Prod.fst ++
        ([("m", (-1 : ℚ)), ("s", 2)].map Prod.fst).filter
          (fun k => decide (k ∉ [("m", (1 : ℚ))].map Prod.fst))).filterMap
        (fun k =>
          if (fun factor1 factor2 _ => factor1 - factor2) (lookupOr0 [("m", 1)] k)
              (lookupOr0 [("m", -1), ("s", 2)] k) k = 0 then none
          else some (k, (fun factor1 factor2 _ => factor1 - factor2) (lookupOr0 [("m", 1)] k)
              (lookupOr0 [("m", -1), ("s", 2)] k) k)) ∧
    (∀ k, (fun factor1 factor2 _ => factor1 - factor2) (lookupOr0 [("m", 1)] k)
        (lookupOr0 [("m", -1), ("s", 2)] k) k = 0 →
      k ∉ (mapUnits [("m", 1)] [("m", -1), ("s", 2)]
        (fun factor1 factor2 _ => factor1 - factor2)).map Prod.fst)) :=
  ⟨by decide, by decide,
    c9_mapUnits_union_pruned [("m", 1)] [("m", -1), ("s", 2)]
      (fun factor1 factor2 _ => factor1 - factor2) (by decide) (by decide)⟩

end ClaimC9

section ClaimC2

/-- C2 fails on the code: `3[m] - 3[m]` is not a bare `Number 0`; the `plus`
unit rule keeps the left operand's unit map, so the result stays wrapped as
`0[m]`. -/
theorem c2_counterexample :
    minus (.unit [("m", 1)] (.number 3)) (.unit [("m", 1)] (.number 3)) =
      .ok (.unit [("m", 1)] (.number 0)) ∧
    minus (.unit [("m", 1)] (.number 3)) (.unit [("m", 1)] (.number 3)) ≠
      .ok (.number 0) := by
  have h : minus (.unit [("m", 1)] (.number 3)) (.unit [("m", 1)] (.number 3)) =
      .ok (.unit [("m", 1)] (.number 0)) := by
    unfold minus
    simp only [negate]
    unfold plus
    rw [handleCases_unit_unit (by rfl) (by rfl)]
    norm_num [dispatchCases, isSameUnit, lookupOr0, isEmptyUnit, valueWrap]
  refine ⟨h, ?_⟩
  rw [h]
  intro hc
  simp at hc

/-- C2 amended: subtracting a quantity from another quantity carrying the
identical (non-empty) unit map keeps that unit map — the exponents do not
cancel — so `minus x[u] y[u] = (x - y)[u]`, not a bare number. -/
theorem c2_minus_same_unit (u : UnitLookup) (x y : ℚ) (hne : isEmptyUnit u = false) :
    minus (.unit u (.number x)) (.unit u (.number y)) =
      .ok (.unit u (.number (x - y))) := by
  unfold minus
  simp only [negate]
  rw [plus_unit_unit, if_pos (isSameUnit_self u), if_neg (by simp [hne]), ← sub_eq_add_neg]

/-- Witness for the amended C2 at `3[m] - 3[m]`. -/
theorem c2_minus_same_unit_witness :
    isEmptyUnit [("m", 1)] = false ∧
    minus (.unit [("m", 1)] (.number 3)) (.unit [("m", 1)] (.number 3)) =
      .ok (.unit [("m", 1)] (.number (3 - 3))) :=
  ⟨by decide, c2_minus_same_unit [("m", 1)] 3 3 (by decide)⟩

end ClaimC2

section ClaimC3

theorem divide_unit_zero_eval :
    divide (.number 5) (.unit [("m", 1)] (.number 0)) =
      .ok (.unit [("m", -1)] (.number (5 / 0))) := by
  have hguard : divide (.number 5) (.unit [("m", 1)] (.number 0)) =
      handleCases (.number 5) (.unit [("m", 1)] (.number 0))
        (fun a b => .ok (mapUnits a b (fun factor1 factor2 _ => factor1 - factor2)))
        (some fun a b => .ok (valueWrap (a / b)))
        (some fun a b =>
          match mapMatrix b (fun cell => divideNN a cell) with
          | .error e => .error e
          | .ok d => .ok (.matrix d))
        (some fun a b =>
          match mapMatrix a (fun cell => divideNN cell b) with
          | .error e => .error e
          | .ok d => .ok (.matrix d))
        none := rfl
  rw [hguard]
  rw [handleCases_unit_right (by rfl) (by rfl)]
  norm_num [mapUnits, mapUnit, mapUnitsRest, lookupOr0, isEmptyUnit, dispatchCases, valueWrap,
    List.filterMap_cons, List.filterMap_nil]

/-- C3 fails on the code: a unit-wrapped zero divisor does not raise the
"cannot divide by 0" error; `5 / 0[m]` evaluates to an ok result (the unit
branch bypasses the bare-number zero check and the scalar division is
performed on the unwrapped payload). -/
theorem c3_counterexample :
    (divide (.number 5) (.unit [("m", 1)] (.number 0))).isOk = true := by
  rw [divide_unit_zero_eval]
  rfl

/-- C3 amended: the zero check fires only when the divisor is a bare
`Number` whose value is exactly `0` — then the error is raised before
dispatch, whatever the dividend — while a unit-wrapped zero divisor
bypasses the check and division proceeds. -/
theorem c3_divide_zero_check :
    (∀ a, divide a (.number 0) = .error "Equation resolve: cannot divide by 0") ∧
    (divide (.number 5) (.unit [("m", 1)] (.number 0))).isOk = true := by
  constructor
  · intro a
    rw [divide, if_pos (by simp)]
  · rw [divide_unit_zero_eval]
    rfl

end ClaimC3

section MapMatrixLemmas

theorem mapCells_ok {f : ℚ → Except String ℚ} {g : ℚ → ℚ} {l : List ℚ}
    (h : ∀ x ∈ l, f x = .ok (g x)) : mapCells f l = .ok (l.map g) := by
  induction l with
  | nil => rfl
  | cons x t ih =>
    rw [mapCells, h x (by simp), ih (fun y hy => h y (by simp [hy]))]
    rfl

theorem mapCells_isOk {f : ℚ → Except String ℚ} {l : List ℚ}
    (h : ∀ x ∈ l, ∃ y, f x = .ok y) : ∃ ys, mapCells f l = .ok ys := by
  induction l with
  | nil => exact ⟨[], rfl⟩
  | cons x t ih =>
    obtain ⟨y, hy⟩ := h x (by simp)
    obtain ⟨ys, hys⟩ := ih (fun z hz => h z (by simp [hz]))
    exact ⟨y :: ys, by rw [mapCells, hy, hys]⟩

theorem mapCells_error {f : ℚ → Except String ℚ} {l : List ℚ} {e₀ : String}
    (h1 : ∃ x ∈ l, f x = .error e₀)
    (h2 : ∀ x ∈ l, f x = .error e₀ ∨ ∃ y, f x = .ok y) :
    mapCells f l = .error e₀ := by
  induction l with
  | nil => simp at h1
  | cons x t ih =>
    rcases h2 x (by simp) with hx | ⟨y, hy⟩
    · rw [mapCells, hx]
    · rw [mapCells, hy]
      have h1t : ∃ z ∈ t, f z = .error e₀ := by
        rcases h1 with ⟨z, hz, hfz⟩
        rcases List.mem_cons.1 hz with rfl | hz'
        · rw [hy] at hfz; cases hfz
        · exact ⟨z, hz', hfz⟩
      rw [ih h1t (fun z hz => h2 z (by simp [hz]))]

theorem mapRows_ok {f : ℚ → Except String ℚ} {g : ℚ → ℚ} {rows : List (List ℚ)}
    (h : ∀ row ∈ rows, ∀ x ∈ row, f x = .ok (g x)) :
    mapRows f rows = .ok (rows.map (fun row => row.map g)) := by
  induction rows with
  | nil => rfl
  | cons row t ih =>
    rw [mapRows, mapCells_ok (h row (by simp)), ih (fun r hr => h r (by simp [hr]))]
    rfl

theorem mapRows_error {f : ℚ → Except String ℚ} {rows : List (List ℚ)} {e₀ : String}
    (h1 : ∃ row ∈ rows, ∃ x ∈ row, f x = .error e₀)
    (h2 : ∀ row ∈ rows, ∀ x ∈ row, f x = .error e₀ ∨ ∃ y, f x = .ok y) :
    mapRows f rows = .error e₀ := by
  induction rows with
  | nil => simp at h1
  | cons row t ih =>
    by_cases hrow : ∃ x ∈ row, f x = .error e₀
    · rw [mapRows, mapCells_error hrow (h2 row (by simp))]
    · push_neg at hrow
      have hok : ∀ x ∈ row, ∃ y, f x = .ok y := by
        intro x hx
        rcases h2 row (by simp) x hx with he | hy
        · exact absurd he (hrow x hx)
        · exact hy
      obtain ⟨ys, hys⟩ := mapCells_isOk hok
      rw [mapRows, hys]
      have h1t : ∃ r ∈ t, ∃ x ∈ r, f x = .error e₀ := by
        rcases h1 with ⟨r, hr, x, hx, hfx⟩
        rcases List.mem_cons.1 hr with rfl | hr'
        · exact absurd hfx (hrow x hx)
        · exact ⟨r, hr', x, hx, hfx⟩
      rw [ih h1t (fun r hr => h2 r (by simp [hr]))]

end MapMatrixLemmas

section ClaimC4

theorem divide_number_matrix (x : ℚ) (d : MatrixData) :
    divide (.number x) (.matrix d) =
      match mapMatrix d (fun cell => divideNN x cell) with
      | .error e => .error e
      | .ok d2 => .ok (.matrix d2) := rfl

/-- C4 fails on the code: for a Number dividend and a Matrix divisor the
per-cell recursion is `divide(a, cell)`, i.e. the number is divided by each
cell — `6 / [[2]]` is `[[3]]`, not the claimed cell-by-number `[[2/6]]`. -/
theorem c4_counterexample :
    divide (.number 6) (.matrix ⟨1, 1, [[2]]⟩) = .ok (.matrix ⟨1, 1, [[3]]⟩) ∧
    divide (.number 6) (.matrix ⟨1, 1, [[2]]⟩) ≠ .ok (.matrix ⟨1, 1, [[2 / 6]]⟩) := by
  have h : divide (.number 6) (.matrix ⟨1, 1, [[2]]⟩) = .ok (.matrix ⟨1, 1, [[3]]⟩) := by
    rw [divide_number_matrix]
    norm_num [mapMatrix, mapRows, mapCells, divideNN]
  refine ⟨h, ?_⟩
  rw [h]
  intro hc
  simp only [Except.ok.injEq, ResultTree.matrix.injEq, MatrixData.mk.injEq] at hc
  norm_num at hc

/-- C4 amended: for the `N, M` case of `divide`, every result cell is the
number divided by the corresponding matrix cell (shape preserved); the
zero check applies to each cell. -/
theorem c4_divide_number_matrix (x : ℚ) (d : MatrixData)
    (h : ∀ row ∈ d.values, ∀ c ∈ row, c ≠ 0) :
    divide (.number x) (.matrix d) =
      .ok (.matrix ⟨d.m, d.n, d.values.map (fun row => row.map (fun c => x / c))⟩) := by
  rw [divide_number_matrix, mapMatrix,
    mapRows_ok (g := fun c => x / c) (fun row hrow c hc => by
      rw [divideNN, if_neg (h row hrow c hc)])]

/-- Witness for the amended C4 at `6 / [[1, 2], [4, 8]]`. -/
theorem c4_divide_number_matrix_witness :
    (∀ row ∈ ([[1, 2], [4, 8]] : List (List ℚ)), ∀ c ∈ row, c ≠ 0) ∧
    divide (.number 6) (.matrix ⟨2, 2, [[1, 2], [4, 8]]⟩) =
      .ok (.matrix ⟨2, 2, ([[1, 2], [4, 8]] : List (List ℚ)).map
        (fun row => row.map (fun c => 6 / c))⟩) :=
  ⟨by decide, c4_divide_number_matrix 6 ⟨2, 2, [[1, 2], [4, 8]]⟩ (by decide)⟩

end ClaimC4

section ClaimC10

/-- C10: dividing a bare Number by a Matrix that contains a `0` cell raises
"cannot divide by 0" — the zero check is re-applied by the recursive
per-cell `divide(a, cell)` call — rather than producing an ok result. -/
theorem c10_divide_matrix_zero_cell (x : ℚ) (d : MatrixData)
    (h : ∃ row ∈ d.values, (0 : ℚ) ∈ row) :
    divide (.number x) (.matrix d) = .error "Equation resolve: cannot divide by 0" := by
  rw [divide_number_matrix, mapMatrix]
  have h1 : ∃ row ∈ d.values, ∃ c ∈ row, divideNN x c =
      .error "Equation resolve: cannot divide by 0" := by
    rcases h with ⟨row, hrow, hc⟩
    exact ⟨row, hrow, 0, hc, by rw [divideNN, if_pos rfl]⟩
  have h2 : ∀ row ∈ d.values, ∀ c ∈ row, divideNN x c =
      .error "Equation resolve: cannot divide by 0" ∨ ∃ y, divideNN x c = .ok y := by
    intro row _ c _
    by_cases hc : c = 0
    · exact Or.inl (by rw [divideNN, if_pos hc])
    · exact Or.inr ⟨x / c, by rw [divideNN, if_neg hc]⟩
  rw [mapRows_error h1 h2]

/-- Witness for C10 at `5 / [[1, 0], [3, 4]]`. -/
theorem c10_divide_matrix_zero_cell_witness :
    (∃ row ∈ ([[1, 0], [3, 4]] : List (List ℚ)), (0 : ℚ) ∈ row) ∧
    divide (.number 5) (.matrix ⟨2, 2, [[1, 0], [3, 4]]⟩) =
      .error "Equation resolve: cannot divide by 0" :=
  ⟨by decide, c10_divide_matrix_zero_cell 5 ⟨2, 2, [[1, 0], [3, 4]]⟩ (by decide)⟩

end ClaimC10

section ClaimC5

/-- C5 fails on the code: the `**` guard tests `a.type === 'matrix'`
directly, so a unit-wrapped column vector is not caught; `2[m]** [[3]]`
(two one-column payloads, the left unit-wrapped) computes the scalar
product `6[m]` instead of raising the implied-multiplication error. -/
theorem c5_counterexample :
    multiplyImplied (.unit [("m", 1)] (.matrix ⟨1, 1, [[2]]⟩)) (.matrix ⟨1, 1, [[3]]⟩) =
      .ok (.unit [("m", 1)] (.number 6)) := by
  have h0 : multiplyImplied (.unit [("m", 1)] (.matrix ⟨1, 1, [[2]]⟩)) (.matrix ⟨1, 1, [[3]]⟩) =
      multiply (.unit [("m", 1)] (.matrix ⟨1, 1, [[2]]⟩)) (.matrix ⟨1, 1, [[3]]⟩) := rfl
  rw [h0, multiply, handleCases_unit_left (by rfl) (by rfl)]
  norm_num [dispatchCases, mapUnits, mapUnit, mapUnitsRest, lookupOr0, isEmptyUnit,
    scalarProduct, valueWrap, List.filterMap_cons, List.filterMap_nil, List.enum,
    List.enumFrom, List.getD]

/-- C5 amended: `**` raises the implied-multiplication error exactly when
both operands are bare matrices with one column; any other operand pair —
including unit-wrapped column vectors — behaves identically to `*`. -/
theorem c5_multiplyImplied_bare_only :
    (∀ da db : MatrixData, da.n = 1 → db.n = 1 →
      multiplyImplied (.matrix da) (.matrix db) =
        .error "Equation resolve: cannot use implied multiplication for scalar product") ∧
    (∀ a b : ResultTree, (a.isMatrixN1 && b.isMatrixN1) = false →
      multiplyImplied a b = multiply a b) := by
  constructor
  · intro da db h1 h2
    simp only [multiplyImplied]
    rw [if_pos ⟨h1, h2⟩]
  · intro a b h
    cases a with
    | number x => rfl
    | unit u v => rfl
    | matrix da =>
      cases b with
      | number y => rfl
      | unit u v => rfl
      | matrix db =>
        by_cases hcond : da.n = 1 ∧ db.n = 1
        · exfalso
          simp only [ResultTree.isMatrixN1, hcond.1, hcond.2] at h
          simp at h
        · simp only [multiplyImplied]
          rw [if_neg hcond]

/-- Witness for the amended C5: two bare column vectors raise the error,
and a pair that is not two bare column vectors multiplies like `*`. -/
theorem c5_multiplyImplied_bare_only_witness :
    multiplyImplied (.matrix ⟨3, 1, [[1], [2], [3]]⟩) (.matrix ⟨3, 1, [[4], [5], [6]]⟩) =
      .error "Equation resolve: cannot use implied multiplication for scalar product" ∧
    multiplyImplied (.number 2) (.number 3) = multiply (.number 2) (.number 3) :=
  ⟨c5_multiplyImplied_bare_only.1 ⟨3, 1, [[1], [2], [3]]⟩ ⟨3, 1, [[4], [5], [6]]⟩ rfl rfl,
    c5_multiplyImplied_bare_only.2 (.number 2) (.number 3) (by decide)⟩

end ClaimC5

section ClaimC7

/-- C7: `power` rejects unit-wrapped exponents ("exponent must be unitless")
and non-number exponents ("exponent must be a number"); for a unit-wrapped
scalar base and a bare number exponent `b`, the result carries the base's
unit map with every exponent multiplied by `b` (pruned of zeros, emptiness
dropping the wrapper) around the payload raised to `b`; in particular
`(2[m])^3 = 8[m^3]`. -/
theorem c7_power_exponent_and_unit_scaling :
    (∀ (a : ResultTree) (u : UnitLookup) (v : ResultTree),
      power a (.unit u v) = .error "Equation resolve: exponent must be unitless") ∧
    (∀ (a : ResultTree) (d : MatrixData),
      power a (.matrix d) = .error "Equation resolve: exponent must be a number") ∧
    (∀ (u : UnitLookup) (x b : ℚ), ∃ r,
      power (.unit u (.number x)) (.number b) = .ok r ∧
      getUnit r = mapUnit u (fun factor _ => factor * b) ∧
      getUnitless r = .number (mathPow x b)) ∧
    power (.unit [("m", 1)] (.number 2)) (.number 3) =
      .ok (.unit [("m", 3)] (.number 8)) := by
  refine ⟨fun a u v => rfl, fun a d => rfl, ?_, ?_⟩
  · intro u x b
    have heq : power (.unit u (.number x)) (.number b) =
        if isEmptyUnit (mapUnit u (fun factor _ => factor * b)) then
          .ok (.number (mathPow x b))
        else
          .ok (.unit (mapUnit u (fun factor _ => factor * b)) (.number (mathPow x b))) := by
      simp only [power]
      rw [handleCases_unit_left (by rfl) (by rfl)]
      by_cases he : isEmptyUnit (mapUnit u (fun factor _ => factor * b))
      · rw [if_pos he]
        show (if isEmptyUnit _ then _ else _) = _
        rw [if_pos he]
        rfl
      · rw [if_neg he]
        show (if isEmptyUnit _ then _ else _) = _
        rw [if_neg he]
        rfl
    by_cases he : isEmptyUnit (mapUnit u (fun factor _ => factor * b))
    · refine ⟨.number (mathPow x b), by rw [heq, if_pos he], ?_, rfl⟩
      have : mapUnit u (fun factor _ => factor * b) = [] := List.isEmpty_iff.1 he
      rw [this]
      rfl
    · exact ⟨.unit (mapUnit u (fun factor _ => factor * b)) (.number (mathPow x b)),
        by rw [heq, if_neg he], rfl, rfl⟩
  · simp only [power]
    rw [handleCases_unit_left (by rfl) (by rfl)]
    norm_num [mapUnit, List.filterMap_cons, List.filterMap_nil, isEmptyUnit,
      dispatchCases, valueWrap, mathPow, Rat.den_ofNat, Rat.num_ofNat]

end ClaimC7

section ClaimC1

theorem dispatchCases_ok_nonunit
    {nn : Option (ℚ → ℚ → Except String ResultTree)}
    {nm : Option (ℚ → MatrixData → Except String ResultTree)}
    {mn : Option (MatrixData → ℚ → Except String ResultTree)}
    {mm : Option (MatrixData → MatrixData → Except String ResultTree)}
    (hnn : ∀ f, nn = some f → ∀ x y r, f x y = .ok r → r.isUnit = false)
    (hnm : ∀ f, nm = some f → ∀ x d r, f x d = .ok r → r.isUnit = false)
    (hmn : ∀ f, mn = some f → ∀ d y r, f d y = .ok r → r.isUnit = false)
    (hmm : ∀ f, mm = some f → ∀ d1 d2 r, f d1 d2 = .ok r → r.isUnit = false)
    (a b : ResultTree) (r : ResultTree)
    (h : dispatchCases a b nn nm mn mm = .ok r) : r.isUnit = false := by
  cases a with
  | unit u v => exact Except.noConfusion h
  | number x =>
    cases b with
    | unit u v => exact Except.noConfusion h
    | number y =>
      cases nn with
      | none => exact Except.noConfusion h
      | some f => exact hnn f rfl x y r h
    | matrix d =>
      cases nm with
      | none => exact Except.noConfusion h
      | some f => exact hnm f rfl x d r h
  | matrix d =>
    cases b with
    | unit u v => exact Except.noConfusion h
    | number y =>
      cases mn with
      | none => exact Except.noConfusion h
      | some f => exact hmn f rfl d y r h
    | matrix d2 =>
      cases mm with
      | none => exact Except.noConfusion h
      | some f => exact hmm f rfl d d2 r h

theorem noUnitUnit_of_nonunit {r : ResultTree} (h : r.isUnit = false) :
    r.noUnitUnit = true := by
  cases r with
  | number x => rfl
  | matrix d => rfl
  | unit u v => simp [ResultTree.isUnit] at h

/-- C1: when at least one operand of `handleCases` is a Unit (operands and
shape combinators well-formed, as the source's static types guarantee), the
unit maps are combined exactly once, before a single recursion on the two
unit-stripped payloads, whose shape dispatch involves no unit combination;
the combined map is returned bare when empty and in exactly one Unit layer
otherwise — consequently no ok result contains a Unit wrapping a Unit. -/
theorem c1_handleCases_unit_combination
    (a b : ResultTree)
    (cu : UnitLookup → UnitLookup → Except String UnitLookup)
    (nn : Option (ℚ → ℚ → Except String ResultTree))
    (nm : Option (ℚ → MatrixData → Except String ResultTree))
    (mn : Option (MatrixData → ℚ → Except String ResultTree))
    (mm : Option (MatrixData → MatrixData → Except String ResultTree))
    (hu : (a.isUnit || b.isUnit) = true)
    (ha : a.noUnitUnit = true) (hb : b.noUnitUnit = true)
    (hnn : ∀ f, nn = some f → ∀ x y r, f x y = .ok r → r.isUnit = false)
    (hnm : ∀ f, nm = some f → ∀ x d r, f x d = .ok r → r.isUnit = false)
    (hmn : ∀ f, mn = some f → ∀ d y r, f d y = .ok r → r.isUnit = false)
    (hmm : ∀ f, mm = some f → ∀ d1 d2 r, f d1 d2 = .ok r → r.isUnit = false) :
    handleCases a b cu nn nm mn mm =
      (match cu (getUnit a) (getUnit b) with
       | .error e => .error e
       | .ok units =>
         match dispatchCases (getUnitless a) (getUnitless b) nn nm mn mm with
         | .error e => .error e
         | .ok result =>
           if isEmptyUnit units then .ok result else .ok (.unit units result)) ∧
    (∀ r, handleCases a b cu nn nm mn mm = .ok r → r.noUnitUnit = true) := by
  have hva : (getUnitless a).isUnit = false := by
    cases a with
    | unit u v =>
      simp only [ResultTree.noUnitUnit, Bool.and_eq_true, Bool.not_eq_true'] at ha
      simpa [getUnitless] using ha.1
    | number x => rfl
    | matrix d => rfl
  have hvb : (getUnitless b).isUnit = false := by
    cases b with
    | unit u v =>
      simp only [ResultTree.noUnitUnit, Bool.and_eq_true, Bool.not_eq_true'] at hb
      simpa [getUnitless] using hb.1
    | number x => rfl
    | matrix d => rfl
  have hdep : ∃ k, a.unitDepth + b.unitDepth = k + 1 := by
    have hu' : a.isUnit = true ∨ b.isUnit = true := by simpa using hu
    rcases hu' with h | h
    · cases a with
      | unit u v => exact ⟨v.unitDepth + b.unitDepth, by simp [ResultTree.unitDepth]; omega⟩
      | number x => simp [ResultTree.isUnit] at h
      | matrix d => simp [ResultTree.isUnit] at h
    · cases b with
      | unit u v => exact ⟨a.unitDepth + v.unitDepth, by simp [ResultTree.unitDepth]; omega⟩
      | number x => simp [ResultTree.isUnit] at h
      | matrix d => simp [ResultTree.isUnit] at h
  obtain ⟨k, hk⟩ := hdep
  have heq : handleCases a b cu nn nm mn mm =
      (match cu (getUnit a) (getUnit b) with
       | .error e => .error e
       | .ok units =>
         match dispatchCases (getUnitless a) (getUnitless b) nn nm mn mm with
         | .error e => .error e
         | .ok result =>
           if isEmptyUnit units then .ok result else .ok (.unit units result)) := by
    rw [handleCases, hk]
    show (if (a.isUnit || b.isUnit) = true then _ else _) = _
    rw [if_pos hu, handleCasesFuel_nonunit cu nn nm mn mm k hva hvb]
  refine ⟨heq, ?_⟩
  intro r hr
  rw [heq] at hr
  cases hcu : cu (getUnit a) (getUnit b) with
  | error e => rw [hcu] at hr; cases hr
  | ok units =>
    rw [hcu] at hr
    cases hdc : dispatchCases (getUnitless a) (getUnitless b) nn nm mn mm with
    | error e => rw [hdc] at hr; cases hr
    | ok result =>
      rw [hdc] at hr
      have hres : result.isUnit = false :=
        dispatchCases_ok_nonunit hnn hnm hmn hmm _ _ _ hdc
      have hr' : (if isEmptyUnit units then (.ok result : Except String ResultTree)
          else .ok (.unit units result)) = .ok r := hr
      by_cases he : isEmptyUnit units
      · rw [if_pos he] at hr'
        cases hr'
        exact noUnitUnit_of_nonunit hres
      · rw [if_neg he] at hr'
        cases hr'
        simp only [ResultTree.noUnitUnit, Bool.and_eq_true, Bool.not_eq_true']
        exact ⟨hres, noUnitUnit_of_nonunit hres⟩

/-- Witness for C1: the unit-stripped recursion and single re-wrap at the
concrete call `handleCases 2[m] 3` with an addition-style number combinator. -/
theorem c1_handleCases_unit_combination_witness :
    ((ResultTree.unit [("m", 1)] (.number 2)).isUnit || (ResultTree.number 3).isUnit) = true ∧
    (ResultTree.unit [("m", 1)] (.number 2)).noUnitUnit = true ∧
    (ResultTree.number 3).noUnitUnit = true ∧
    (handleCases (.unit [("m", 1)] (.number 2)) (.number 3)
        (fun u _ => .ok u) (some fun x y => .ok (.number (x + y))) none none none =
      (match (fun (u : UnitLookup) (_ : UnitLookup) => (.ok u : Except String UnitLookup))
          (getUnit (.unit [("m", 1)] (.number 2))) (getUnit (.number 3)) with
       | .error e => .error e
       | .ok units =>
         match dispatchCases (getUnitless (.unit [("m", 1)] (.number 2)))
             (getUnitless (.number 3)) (some fun x y => .ok (.number (x + y))) none none none with
         | .error e => .error e
         | .ok result =>
           if isEmptyUnit units then .ok result else .ok (.unit units result)) ∧
     (∀ r, handleCases (.unit [("m", 1)] (.number 2)) (.number 3)
        (fun u _ => .ok u) (some fun x y => .ok (.number (x + y))) none none none = .ok r →
        r.noUnitUnit = true)) :=
  ⟨by decide, by decide, by decide,
    c1_handleCases_unit_combination (.unit [("m", 1)] (.number 2)) (.number 3)
      (fun u _ => .ok u) (some fun x y => .ok (.number (x + y))) none none none
      (by decide) (by decide) (by decide)
      (by
        intro f hf x y r hr
        cases hf
        cases hr
        rfl)
      (fun f hf => nomatch hf) (fun f hf => nomatch hf) (fun f hf => nomatch hf)⟩

end ClaimC1

section ClaimC6

/-- Well-formedness of a matrix payload from the data model: the stored
dimensions match the grid, and both are at least 1. -/
def MatrixData.wf (d : MatrixData) : Prop :=
  d.values.length = d.m ∧ (∀ row ∈ d.values, row.length = d.n) ∧ 0 < d.m ∧ 0 < d.n

instance (d : MatrixData) : Decidable d.wf := by
  unfold MatrixData.wf
  infer_instance

/-- Column `j` of a matrix, cells read with default `0`. -/
def colOf (d : MatrixData) (j : ℕ) : List ℚ :=
  d.values.map (fun row => row.getD j 0)

/-- The specification's scalar (dot) product: the sum of pairwise products
of the two first columns. -/
def dotProductSpec (a b : MatrixData) : ℚ :=
  (List.zipWith (fun x y => x * y) (colOf a 0) (colOf b 0)).sum

/-- The specification's standard inner-product cell `(i, j)`: row `i` of `a`
against column `j` of `b`. -/
def innerCellSpec (a b : MatrixData) (i j : ℕ) : ℚ :=
  (List.zipWith (fun x y => x * y) (a.values.getD i []) (colOf b j)).sum

theorem foldl_add_map {α : Type} (l : List α) (g : α → ℚ) (c0 : ℚ) :
    l.foldl (fun current p => current + g p) c0 = c0 + (l.map g).sum := by
  induction l generalizing c0 with
  | nil => simp
  | cons x t ih =>
    rw [List.foldl_cons, ih, List.map_cons, List.sum_cons, add_assoc]

theorem map_enumFrom_eq_zipWith {α : Type} (F : α → ℚ → ℚ) :
    ∀ (t : List α) (cols : List ℚ) (h : ℕ → ℚ) (s : ℕ),
      t.length = cols.length →
      (∀ k, k < cols.length → h (s + k) = cols.getD k 0) →
      (List.enumFrom s t).map (fun p => F p.2 (h p.1)) = List.zipWith F t cols := by
  intro t
  induction t with
  | nil =>
    intro cols h s hlen _
    cases cols with
    | nil => rfl
    | cons c cs => simp at hlen
  | cons x t ih =>
    intro cols h s hlen hidx
    cases cols with
    | nil => simp at hlen
    | cons c cs =>
      have hx : h s = c := by
        have := hidx 0 (by simp)
        simpa using this
      have htail := ih cs h (s + 1) (by simpa using hlen) (fun k hk => by
        have := hidx (k + 1) (by simpa using Nat.succ_lt_succ hk)
        rw [show s + 1 + k = s + (k + 1) by omega]
        simpa [List.getD] using this)
      show ((s, x) :: List.enumFrom (s + 1) t).map (fun p => F p.2 (h p.1)) = _
      rw [List.map_cons, List.zipWith_cons_cons, hx, htail]

theorem getD_map_rows (vals : List (List ℚ)) (j k : ℕ) (hk : k < vals.length) :
    (vals.map (fun row => row.getD j 0)).getD k 0 = (vals.getD k []).getD j 0 := by
  induction vals generalizing k with
  | nil => simp at hk
  | cons row t ih =>
    cases k with
    | zero => rfl
    | succ k =>
      have hk' : k < t.length := by simpa using hk
      simpa [List.getD] using ih k hk'

theorem scalarProduct_eq (a b : MatrixData) (hwa : a.wf) (hwb : b.wf) (hm : a.m = b.m) :
    scalarProduct a b = .ok (.number (dotProductSpec a b)) := by
  rw [scalarProduct, if_neg (by simpa using hm)]
  have hfold : (a.values.enum.foldl
      (fun current p => current + p.2.getD 0 0 * ((b.values.getD p.1 []).getD 0 0)) 0) =
      dotProductSpec a b := by
    rw [foldl_add_map a.values.enum (fun p => p.2.getD 0 0 * ((b.values.getD p.1 []).getD 0 0)) 0,
      zero_add]
    have hmap : a.values.enum.map
        (fun p => p.2.getD 0 0 * ((b.values.getD p.1 []).getD 0 0)) =
        List.zipWith (fun row y => row.getD 0 0 * y) a.values (colOf b 0) := by
      have := map_enumFrom_eq_zipWith (fun (row : List ℚ) (y : ℚ) => row.getD 0 0 * y)
        a.values (colOf b 0) (fun k => (b.values.getD k []).getD 0 0) 0
        (by simp [colOf, hwa.1, hwb.1, hm])
        (fun k hk => by
          rw [zero_add, colOf, getD_map_rows b.values 0 k (by simpa [colOf] using hk)])
      exact this
    rw [hmap]
    simp only [dotProductSpec, colOf]
    rw [List.zipWith_map_left]
  rw [hfold]
  rfl

theorem matrixProduct_eq (a b : MatrixData) (hwa : a.wf) (hwb : b.wf) (hnm : a.n = b.m) :
    ∃ grid,
      matrixProduct a b = .ok (.matrix ⟨a.m, b.n, grid⟩) ∧
      grid.length = a.m ∧ (∀ row ∈ grid, row.length = b.n) ∧
      (∀ i j, i < a.m → j < b.n →
        (grid.getD i []).getD j 0 = innerCellSpec a b i j) := by
  have hb0 : (b.values.getD 0 []).length = b.n := by
    have h1 := hwb.1
    have hm0 := hwb.2.2.1
    cases hbv : b.values with
    | nil =>
      rw [hbv] at h1
      simp at h1
      exact absurd hm0 (by omega)
    | cons r t =>
      have hr : r ∈ b.values := by rw [hbv]; simp
      have hrn := hwb.2.1 r hr
      simpa [List.getD] using hrn
  refine ⟨a.values.mapIdx (fun _aRow row =>
      (b.values.getD 0 []).mapIdx (fun bCol _cell =>
        row.enum.foldl
          (fun current p => current + p.2 * ((b.values.getD p.1 []).getD bCol 0)) 0)), ?_, ?_, ?_, ?_⟩
  · rw [matrixProduct, if_neg (by simpa using hnm)]
  · rw [List.length_mapIdx, hwa.1]
  · intro row hrow
    rcases List.mem_iff_getElem.1 hrow with ⟨i, hi, hget⟩
    rw [← hget, List.getElem_mapIdx]
    rw [List.length_mapIdx, hb0]
  · intro i j hi hj
    have hia : i < a.values.length := by rw [hwa.1]; exact hi
    have hgi : (a.values.mapIdx (fun _aRow row =>
        (b.values.getD 0 []).mapIdx (fun bCol _cell =>
          row.enum.foldl
            (fun current p => current + p.2 * ((b.values.getD p.1 []).getD bCol 0)) 0))).getD i [] =
        (b.values.getD 0 []).mapIdx (fun bCol _cell =>
          (a.values[i]).enum.foldl
            (fun current p => current + p.2 * ((b.values.getD p.1 []).getD bCol 0)) 0) := by
      rw [List.getD_eq_getElem _ _ (by simpa [List.length_mapIdx] using hia),
        List.getElem_mapIdx]
    rw [hgi]
    have hjb : j < (b.values.getD 0 []).length := by rw [hb0]; exact hj
    rw [List.getD_eq_getElem _ _ (by simpa [List.length_mapIdx] using hjb),
      List.getElem_mapIdx]
    have hrow : a.values[i] ∈ a.values := List.getElem_mem hia
    have hrowlen : (a.values[i]).length = a.n := hwa.2.1 _ hrow
    rw [foldl_add_map ((a.values[i]).enum)
      (fun p => p.2 * ((b.values.getD p.1 []).getD j 0)) 0, zero_add]
    have hmap : (a.values[i]).enum.map
        (fun p => p.2 * ((b.values.getD p.1 []).getD j 0)) =
        List.zipWith (fun x y => x * y) (a.values[i]) (colOf b j) :=
      map_enumFrom_eq_zipWith (fun (x : ℚ) (y : ℚ) => x * y)
        (a.values[i]) (colOf b j) (fun k => (b.values.getD k []).getD j 0) 0
        (by simp [colOf, hrowlen, hwb.1]; omega)
        (fun k hk => by
          rw [zero_add, colOf, getD_map_rows b.values j k (by simpa [colOf] using hk)])
    rw [hmap, innerCellSpec, List.getD_eq_getElem _ _ hia]

/-- C6: for two unitless matrices, `multiply` computes the scalar (dot)
product when both have exactly one column — a bare Number summing the
pairwise products, requiring equal row counts (else "scalar product requires
balanced vectors") — and the matrix product otherwise, defined when
`a.n = b.m` (else the shape-mismatch error), with shape `a.m × b.n` and each
cell the standard inner-product sum. -/
theorem c6_multiply_matrix_semantics (da db : MatrixData) (hwa : da.wf) (hwb : db.wf) :
    ((da.n = 1 ∧ db.n = 1) →
      ((da.m ≠ db.m → multiply (.matrix da) (.matrix db) =
          .error "Equation resolve: scalar product requires balanced vectors") ∧
       (da.m = db.m → multiply (.matrix da) (.matrix db) =
          .ok (.number (dotProductSpec da db))))) ∧
    (¬(da.n = 1 ∧ db.n = 1) →
      ((da.n ≠ db.m → multiply (.matrix da) (.matrix db) =
          .error ("Equation resolve: cannot multiply " ++ toString da.m ++ "x" ++
            toString da.n ++ " matrix with " ++ toString db.m ++ "x" ++ toString db.n ++
            " matrix")) ∧
       (da.n = db.m → ∃ grid,
          multiply (.matrix da) (.matrix db) = .ok (.matrix ⟨da.m, db.n, grid⟩) ∧
          grid.length = da.m ∧ (∀ row ∈ grid, row.length = db.n) ∧
          (∀ i j, i < da.m → j < db.n →
            (grid.getD i []).getD j 0 = innerCellSpec da db i j)))) := by
  have hmm0 : multiply (.matrix da) (.matrix db) =
      if da.n = 1 ∧ db.n = 1 then scalarProduct da db else matrixProduct da db := rfl
  constructor
  · intro hcol
    constructor
    · intro hne
      rw [hmm0, if_pos hcol, scalarProduct, if_pos hne]
    · intro hm
      rw [hmm0, if_pos hcol, scalarProduct_eq da db hwa hwb hm]
  · intro hncol
    constructor
    · intro hne
      rw [hmm0, if_neg hncol, matrixProduct, if_pos hne]
    · intro heq
      rw [hmm0, if_neg hncol]
      exact matrixProduct_eq da db hwa hwb heq

end ClaimC6

/-- Witness for C6 at the two column vectors `[1,2,3]ᵗ` and `[4,5,6]ᵗ`. -/
theorem c6_multiply_matrix_semantics_witness :
    MatrixData.wf ⟨3, 1, [[1], [2], [3]]⟩ ∧ MatrixData.wf ⟨3, 1, [[4], [5], [6]]⟩ ∧
    ((((3 : ℕ) = 3 → multiply (.matrix ⟨3, 1, [[1], [2], [3]]⟩) (.matrix ⟨3, 1, [[4], [5], [6]]⟩) =
        .ok (.number (dotProductSpec ⟨3, 1, [[1], [2], [3]]⟩ ⟨3, 1, [[4], [5], [6]]⟩)))) ∧
     dotProductSpec ⟨3, 1, [[1], [2], [3]]⟩ ⟨3, 1, [[4], [5], [6]]⟩ = 32) := by
  have h := c6_multiply_matrix_semantics ⟨3, 1, [[1], [2], [3]]⟩ ⟨3, 1, [[4], [5], [6]]⟩
    (by decide) (by decide)
  refine ⟨by decide, by decide, fun _ => (h.1 ⟨rfl, rfl⟩).2 rfl, ?_⟩
  norm_num [dotProductSpec, colOf, List.getD]
